import Mathlib

/-!
A shallow embedding, in Lean 4, of the core logic of the `video-tools`
repository (src/makemkv.py, src/ripper.py, src/container.py, src/disc.py),
together with theorems settling the frozen claims about its specification.

Python-level conventions used throughout the embedding:
* Python `str` values are modelled as Lean `String`, with the character-level
  operations (`strip`, `split`, `replace`) reimplemented structurally over
  `List Char` so that they compute by kernel reduction.
* Python `int` is modelled as `Int`; `int(s)` is modelled by `pyInt?`
  (optional sign followed by decimal digits, surrounding whitespace allowed;
  the rarely used underscore-separator syntax is not modelled).
* Python `float` is modelled as `ℚ`; `float(s)` is modelled by `pyFloat?`
  (plain decimal literals; exponent/inf/nan syntax is not modelled — no
  claim depends on it).
* Python's stable sorts (`sorted`, `list.sort`) are modelled by a stable
  insertion sort `pySorted lt`, where `lt a b` means "a must be placed
  strictly before b".  A stable sort's output is uniquely determined by the
  comparison, so this is behaviourally identical to CPython's timsort.
* Exceptions are modelled with `Except`; where partially mutated state is
  observable after an exception is caught, the error value carries the
  partially updated state.
-/

/-- Python `str.strip()`: remove whitespace from both ends. -/
def pyStrip (cs : List Char) : List Char :=
  ((cs.dropWhile Char.isWhitespace).reverse.dropWhile Char.isWhitespace).reverse

/-- Python `str.split(sep, maxsplit)` on a single-character separator.
A negative `maxsplit` means "no limit", as in Python.  Always returns at
least one part. -/
def pySplit (sep : Char) (maxsplit : Int) (acc : List Char) : List Char → List (List Char)
  | [] => [acc.reverse]
  | c :: cs =>
    if c = sep ∧ maxsplit ≠ 0 then
      acc.reverse :: pySplit sep (maxsplit - 1) [] cs
    else
      pySplit sep maxsplit (c :: acc) cs

/-- Decimal digit run parsed to a natural number; `none` unless the input is
one or more digits. -/
def pyDigits? (cs : List Char) : Option Nat :=
  if cs ≠ [] ∧ cs.all Char.isDigit then
    some (cs.foldl (fun n c => 10 * n + c.toNat - '0'.toNat) 0)
  else
    none

/-- Python `int(s)`: optional sign and decimal digits, with surrounding
whitespace tolerated. -/
def pyInt? (cs : List Char) : Option Int :=
  match pyStrip cs with
  | '-' :: ds => (pyDigits? ds).map (fun n => -(n : Int))
  | '+' :: ds => (pyDigits? ds).map (fun n => (n : Int))
  | ds => (pyDigits? ds).map (fun n => (n : Int))

/-- Python `float(s)` for plain decimal literals, as an exact rational. -/
def pyFloat? (cs : List Char) : Option ℚ :=
  let core : List Char → Option ℚ := fun ds =>
    match pySplit '.' (-1) [] ds with
    | [w] => (pyDigits? w).map (fun n => (n : ℚ))
    | [w, f] =>
      match pyDigits? w, pyDigits? f with
      | some n, some m => some ((n : ℚ) + (m : ℚ) / ((10 : ℚ) ^ f.length))
      | _, _ => none
    | _ => none
  match pyStrip cs with
  | '-' :: ds => (core ds).map (fun q => -q)
  | '+' :: ds => core ds
  | ds => core ds

/-- Stable insertion of `x` in front of the first element it must strictly
precede; ties keep the existing element first, which makes the resulting
sort stable (`x` is always the earlier element in `pySorted`). -/
def pyInsert (lt : α → α → Bool) (x : α) : List α → List α
  | [] => [x]
  | y :: ys => if lt y x then y :: pyInsert lt x ys else x :: y :: ys

/-- Stable sort by the strict comparison `lt`, modelling Python's stable
`sorted`/`list.sort`. -/
def pySorted (lt : α → α → Bool) (l : List α) : List α :=
  l.foldr (pyInsert lt) []

/-! ## container.py — StreamData, language filtering, default-track choice,
chapters -/

/-- The fields of `container.StreamData` that the modelled operations read
(`type`, `language`, `uid`, `frames`, `default`); the remaining attributes
(title, bps, codec, dimensions, ...) are never consulted by the operations
embedded here. -/
structure StreamData where
  type : String
  language : String
  id : Int
  uid : Int
  frames : Int
  default : Bool
deriving DecidableEq

/-- `container.StreamData.LANG_UND`. -/
def LANG_UND : String := "und"

/-- `container.StreamData.AUDIO`. -/
def STREAM_AUDIO : String := "audio"

/-- `container.StreamData.SUBTITLES`. -/
def STREAM_SUBTITLES : String := "subtitles"

/-- The language-list augmentation performed by
`Container.remux_by_language` (container.py lines 468-496) for one stream
type: when `"und"` was not requested and some requested language has no
matching stream of that type, `"und"` is appended to the requested list.
The `for ... break` search over the requested languages is rendered with
`List.any`. -/
def remux_effective_languages (streams : List StreamData) (languages : List String)
    (stream_type : String) : List String :=
  if LANG_UND ∈ languages then
    languages
  else
    if languages.any (fun language =>
        (streams.filter (fun x => x.language == language && x.type == stream_type)).isEmpty)
    then
      languages ++ [LANG_UND]
    else
      languages

/-- The choice made by `Container._set_default_stream_by_language`
(container.py lines 550-616): returns `none` when no stream is available to
mark as default, otherwise `some (stream, edit)` where `stream` is the
stream selected as default and `edit` says whether a track-property edit is
issued (`false` exactly when the chosen stream is already default).  The
subprocess invocation and reload are outside the model. -/
def set_default_stream_choice (all_streams : List StreamData)
    (language stream_type : String) (default_required : Bool) :
    Option (StreamData × Bool) :=
  let streams := all_streams.filter (fun x => x.type == stream_type && x.language == language)
  let streams :=
    if streams.isEmpty && default_required then
      all_streams.filter (fun x => x.type == stream_type)
    else streams
  if streams.isEmpty then
    none
  else
    let streams :=
      if stream_type == STREAM_SUBTITLES then
        pySorted (fun a b => a.frames > b.frames) streams
      else streams
    match streams with
    | [] => none
    | stream :: _ => some (stream, !stream.default)

/-- The fields of `container.ChapterData` used by gap detection; start and
end times are seconds as exact rationals (Python stores floats; only
subtraction and order comparisons are performed, on which the float and
exact values agree for time-scale magnitudes). -/
structure ChapterData where
  start_time : ℚ
  end_time : ℚ
deriving DecidableEq

/-- `ChapterData.__lt__`: comparison purely on start time (the Python method
returns `True` or `None`; `None` is falsy, so sorting behaves as this
boolean). -/
def chapter_lt (a b : ChapterData) : Bool := a.start_time < b.start_time

/-- The scan inside `Container._detect_chapter_gaps`: walk the sorted
chapters keeping the previous one, reporting `true` on the first positive
gap between the previous end and the next start. -/
def detect_gaps_scan : Option ChapterData → List ChapterData → Bool
  | _, [] => false
  | none, c :: rest => detect_gaps_scan (some c) rest
  | some p, c :: rest =>
    if c.start_time - p.end_time > 0 then true else detect_gaps_scan (some c) rest

/-- `Container._detect_chapter_gaps` (container.py lines 360-371). -/
def detect_chapter_gaps (chapters : List ChapterData) : Bool :=
  detect_gaps_scan none (pySorted chapter_lt chapters)

/-! ## disc.py — Disc equality -/

/-- The filesystem-dependent attributes of a `Disc`'s `filename` path that
`Disc.__eq__` consults: whether the path is a symbolic link, its
`Path.absolute()` form (which does NOT resolve symlinks), and its
`Path.resolve()` form (the canonical path). -/
structure DiscPath where
  path : String
  is_symlink : Bool
  absolute_path : String
  resolved_path : String
deriving DecidableEq

/-- `Disc.__eq__` (disc.py lines 110-116): when both paths are symbolic
links, compare their `absolute()` forms; when only `self` is a symbolic
link, return `True` unconditionally; otherwise compare the raw paths. -/
def disc_eq (a b : DiscPath) : Bool :=
  if a.is_symlink && b.is_symlink then
    a.absolute_path == b.absolute_path
  else if a.is_symlink then
    true
  else
    a.path == b.path

/-! ## ripper.py — process_disc_devices

Device paths are modelled as atoms (`Nat`); the filesystem behind them is a
`DevFS` giving each path its block-device flag, symlink flag, and symlink
target.  `Path.resolve()` of a non-symlink device path is the path itself
(absolute `/dev` entries without symlinked components), and of a symlink is
its (canonical) target.  The model covers absolute supplied paths, so the
relative-entry fixup loop at the top of the source function is the
identity and is omitted.  `list(set(...))` (whose iteration order CPython
leaves unspecified) is modelled as first-occurrence deduplication
(`List.dedup`); the final `devices.sort()` makes the published order
independent of that choice. -/
structure DevFS where
  is_block : Nat → Bool
  is_link : Nat → Bool
  link_target : Nat → Nat

/-- `Path.resolve()` under a `DevFS`. -/
def DevFS.resolve (fs : DevFS) (p : Nat) : Nat :=
  if fs.is_link p then fs.link_target p else p

/-- The symlink-deduplication loop of `process_disc_devices` (ripper.py
lines 440-443): iterate over a copy (`pending`) of the reversed symlink
list while mutating the live list (`cur`); an entry whose resolved target
still occurs more than once in the live list is removed (Python
`list.remove`: first equal element). -/
def symlink_dedup_pass (fs : DevFS) : List Nat → List Nat → List Nat
  | [], cur => cur
  | d :: pending, cur =>
    if (cur.map fs.resolve).count (fs.resolve d) > 1 then
      symlink_dedup_pass fs pending (cur.erase d)
    else
      symlink_dedup_pass fs pending cur

/-- The raw-path removal loop of `process_disc_devices` (ripper.py lines
447-449): for each resolved surviving symlink, if it occurs among the
resolved direct links, remove it (by raw equality) from the direct links. -/
def direct_remove_pass (fs : DevFS) : List Nat → List Nat → List Nat
  | [], direct_links => direct_links
  | device :: rest, direct_links =>
    direct_remove_pass fs rest
      (if device ∈ direct_links.map fs.resolve then direct_links.erase device else direct_links)

/-- `ripper.process_disc_devices` (ripper.py lines 414-453) over the `DevFS`
model: keep block devices, deduplicate symlinks so only the first link per
resolved target survives, drop raw paths shadowed by a surviving symlink,
and sort. -/
def process_disc_devices (fs : DevFS) (devices : List Nat) : List Nat :=
  let devices := devices.filter fs.is_block
  let symlinks := devices.filter fs.is_link
  let direct_links := (devices.filter (fun x => !fs.is_link x)).dedup
  let symlinks := (symlink_dedup_pass fs symlinks.reverse symlinks.reverse).reverse
  let direct_links := direct_remove_pass fs (symlinks.map fs.resolve) direct_links
  pySorted (fun a b => a < b) (symlinks ++ direct_links)

/-! ## makemkv.py — MakeMKVParser

The parser state mirrors the fields set by `MakeMKVParser.__init__`, and
`parse` mirrors `MakeMKVParser.parse` line by line.  Dictionaries are
insertion-ordered association lists (`dget`/`dset`), as in CPython.
Exception texts are representative of the CPython/`ValueError` messages;
the messages produced by the source's own `raise ValueError(...)` calls are
reproduced exactly. -/

/-- The values of the `MakeMKVMessage.MSG_CODE` enumeration. -/
def MSG_CODE_values : List Int :=
  [0, 1002, 1005, 1011, 1012, 2003, 2008, 2023, 3002, 3007, 3025, 3028,
   3037, 3038, 3100, 3102, 3103, 3104, 3120, 3307, 3309, 3344, 3400, 3401,
   3402, 3404, 3406, 4004, 4007, 4008, 4009, 4047, 5001, 5003, 5004, 5005,
   5010, 5011, 5014, 5017, 5018, 5024, 5036, 5037, 5051, 5052, 5054, 5055,
   5057, 5076, 5077, 5085, 5088, 5091, 5092, 6119, 6120, 6121, 6201, 6202,
   6203, 6206, 6209, 6212]

/-- The values of the `MakeMKVMessage.UI_MSG` enumeration. -/
def UI_MSG_values : List Int :=
  [0, 1, 16, 32, 64, 128, 260, 516, 776, 1028, 1288, 1544, 3854, 5200,
   131072, 131088, 16777216, 16908288]

/-- The values of the `MakeMKVMessage.DRIVE_STATE` enumeration. -/
def DRIVE_STATE_values : List Int := [0, 1, 2, 3, 256, 257]

/-- The values of the `MakeMKVMessage.DISC_FLAG` enumeration. -/
def DISC_FLAG_values : List Int := [0, 1, 2, 4, 8, 16]

/-- `MakeMKVMessage.MSG_CODE_ERRORS` (makemkv.py lines 188-203), by value. -/
def MSG_CODE_ERRORS : List Int :=
  [1002, 1012, 2003, 2023, 4004, 4009, 5003, 5004, 5010, 5037, 5052, 5055,
   5076, 5077]

/-- `MakeMKVMessage.MSG_CODE_SUCCESS` (makemkv.py line 205), by value. -/
def MSG_CODE_SUCCESS : List Int := [5011]

/-- `MakeMKVMessage.ATTR_ID` membership: the enumeration's values are the
contiguous range 0..50. -/
def attrIdValid (id : Int) : Bool := 0 ≤ id && id ≤ 50

/-- The `ATTR_ID` values `_process_id` converts with `int(...)`:
OrderWeight, ChapterCount, DiskSizeBytes, SegmentsCount, StreamFlags,
AudioChannelsCount, AudioSampleRate, AudioSampleSize. -/
def intAttrIds : List Int := [33, 8, 11, 25, 22, 14, 17, 18]

/-- Python `==` between a `str` and an `int` (or an `IntEnum` member, whose
equality is its integer value's): there is no implicit coercion, so the
comparison is always `False`.  `MakeMKVParser.parse` compares the raw
string field `code` against `MSG_CODE_ERRORS`/`MSG_CODE_SUCCESS` members
(makemkv.py lines 382 and 385), which is this comparison. -/
def pyStrEqInt (_s : String) (_n : Int) : Bool := false

/-- An attribute value produced by `MakeMKVParser._process_id`: an integer
for the duration/count attributes, the (unquoted) text otherwise. -/
inductive AttrVal where
  | i (n : Int)
  | s (v : String)
deriving DecidableEq

/-- A key of a per-title dictionary: the string key `"streams"` or an
`ATTR_ID` member (identified by its integer value, as `IntEnum` keys hash
and compare by value). -/
inductive TKey where
  | streamsKey
  | attr (id : Int)
deriving DecidableEq

/-- A per-stream attribute dictionary. -/
abbrev StreamDict := List (Int × AttrVal)

/-- A value of a per-title dictionary: an attribute value, or the nested
stream map stored under `"streams"`. -/
inductive TVal where
  | v (a : AttrVal)
  | streams (m : List (Int × StreamDict))
deriving DecidableEq

/-- A per-title dictionary. -/
abbrev TitleDict := List (TKey × TVal)

/-- A Python value that is either a `str` or an `int`; the parser's
`operation` field starts as `""` and is later assigned a `MSG_CODE` member
(identified by value). -/
inductive PyScalar where
  | s (v : String)
  | i (n : Int)
deriving DecidableEq

/-- Dictionary lookup (first matching key; keys are unique by
construction). -/
def dget [DecidableEq κ] (d : List (κ × β)) (k : κ) : Option β :=
  match d with
  | [] => none
  | (k0, v0) :: rest => if k0 = k then some v0 else dget rest k

/-- Dictionary store, with CPython insertion-order semantics: an existing
key keeps its position, a new key is appended. -/
def dset [DecidableEq κ] (d : List (κ × β)) (k : κ) (v : β) : List (κ × β) :=
  match d with
  | [] => [(k, v)]
  | (k0, v0) :: rest => if k0 = k then (k0, v) :: rest else (k0, v0) :: dset rest k v

/-- The mutable state of a `MakeMKVParser` instance (makemkv.py lines
209-265). -/
structure ParserState where
  raw_message : String
  message_type : String
  title_count : Int
  progress : ℚ
  total_progress : ℚ
  drive_index : Int
  drive_visible : Int
  drive_enabled : Int
  disc_flags : Int
  drive_name : String
  disc_name : String
  operation : PyScalar
  title_number : Int
  message : String
  message_code : Int
  message_flags : Int
  message_format : String
  message_params : List String
  disc : List (Int × AttrVal)
  titles : List (Int × TitleDict)
  message_error_count : Nat
  message_success_count : Nat

/-- The state built by `MakeMKVParser.__init__`. -/
def initParserState : ParserState where
  raw_message := ""
  message_type := ""
  title_count := -1
  progress := 0
  total_progress := 0
  drive_index := -1
  drive_visible := -1
  drive_enabled := -1
  disc_flags := -1
  drive_name := ""
  disc_name := ""
  operation := .s ""
  title_number := -1
  message := ""
  message_code := -1
  message_flags := -1
  message_format := ""
  message_params := []
  disc := []
  titles := []
  message_error_count := 0
  message_success_count := 0

/-- Representative CPython message for `int()` on a bad literal. -/
def intErr (cs : List Char) : String :=
  "invalid literal for int with base 10: " ++ (⟨cs⟩ : String)

/-- Representative CPython message for `float()` on a bad literal. -/
def floatErr (cs : List Char) : String :=
  "could not convert string to float: " ++ (⟨cs⟩ : String)

/-- Representative CPython message for unpacking too few values. -/
def unpackErr (expected got : Nat) : String :=
  "not enough values to unpack (expected " ++ toString expected ++ ", got "
    ++ toString got ++ ")"

/-- A decode step: either the successfully updated state, or the
partially-updated state paired with the exception text (the mutations made
before the raise remain visible to the `except` handler). -/
abbrev PR := Except (ParserState × String) ParserState

/-- `MakeMKVParser._process_id` (makemkv.py lines 267-295): strip double
quotes; parse a `Duration` as `H:MM:SS` into whole seconds; parse the
closed set of count/size/flag attributes as integers; pass everything else
through as text. -/
def process_id (id : Int) (raw_value : List Char) : Except String AttrVal :=
  let raw_value := raw_value.filter (· ≠ '"')
  if id = 9 then
    match pySplit ':' 2 [] raw_value with
    | [h] =>
      match pyInt? h with
      | none => .error (intErr h)
      | some _ => .error (unpackErr 3 1)
    | [h, m] =>
      match pyInt? h with
      | none => .error (intErr h)
      | some _ =>
        match pyInt? m with
        | none => .error (intErr m)
        | some _ => .error (unpackErr 3 2)
    | [h, m, s] =>
      match pyInt? h with
      | none => .error (intErr h)
      | some hours =>
        match pyInt? m with
        | none => .error (intErr m)
        | some minutes =>
          match pyInt? s with
          | none => .error (intErr s)
          | some seconds => .ok (.i (seconds + hours * 3600 + minutes * 60))
    | _ => .error "too many values to unpack (expected 3)"
  else if id ∈ intAttrIds then
    match pyInt? raw_value with
    | none => .error (intErr raw_value)
    | some n => .ok (.i n)
  else
    .ok (.s ⟨raw_value⟩)

/-- The `PRGV` decode rule (makemkv.py lines 312-315): three floats,
divided into two progress fractions (a zero scale raises
`ZeroDivisionError`, caught like every per-line failure). -/
def parsePRGV (st : ParserState) (content : List Char) : PR :=
  match pySplit ',' 2 [] content with
  | [a] =>
    match pyFloat? a with
    | none => .error (st, floatErr a)
    | some _ => .error (st, unpackErr 3 1)
  | [a, b] =>
    match pyFloat? a with
    | none => .error (st, floatErr a)
    | some _ =>
      match pyFloat? b with
      | none => .error (st, floatErr b)
      | some _ => .error (st, unpackErr 3 2)
  | [a, b, c] =>
    match pyFloat? a with
    | none => .error (st, floatErr a)
    | some current =>
      match pyFloat? b with
      | none => .error (st, floatErr b)
      | some total =>
        match pyFloat? c with
        | none => .error (st, floatErr c)
        | some maximum_progress =>
          if maximum_progress = 0 then
            .error (st, "float division by zero")
          else
            .ok { st with progress := current / maximum_progress,
                          total_progress := total / maximum_progress }
  | _ => .error (st, "too many values to unpack (expected 3)")

/-- The `DRV` decode rule (makemkv.py lines 318-345): six fields, four
integer conversions in source order (index, visible, flags, enabled), two
names, then validation of `visible` against `DRIVE_STATE` and `flags`
against `DISC_FLAG`, re-raised with the source's own messages. -/
def parseDRV (st : ParserState) (content : List Char) : PR :=
  match pySplit ',' 5 [] content with
  | [index, visible, enabled, flags, drive_name, disc_name] =>
    match pyInt? index with
    | none => .error (st, intErr index)
    | some i =>
      let st := { st with drive_index := i }
      match pyInt? visible with
      | none => .error (st, intErr visible)
      | some vis =>
        let st := { st with drive_visible := vis }
        match pyInt? flags with
        | none => .error (st, intErr flags)
        | some fl =>
          let st := { st with disc_flags := fl }
          match pyInt? enabled with
          | none => .error (st, intErr enabled)
          | some en =>
            let st := { st with drive_enabled := en,
                                drive_name := (⟨drive_name⟩ : String),
                                disc_name := (⟨disc_name⟩ : String) }
            if vis ∉ DRIVE_STATE_values then
              .error (st, "The DRV visible value " ++ toString vis ++ " was not found!")
            else if fl ∉ DISC_FLAG_values then
              .error (st, "The DRV flags value " ++ toString fl ++ " was not found!")
            else
              .ok st
  | parts => .error (st, unpackErr 6 parts.length)

/-- The `MSG` decode rule (makemkv.py lines 348-388): five fields; code and
flags stored as integers; a non-empty text stored unquoted; the format
string split off (`params` stays unbound when the split has no second
half, so a nonzero count then raises an unbound-local error); flags and
code validated against their enumerations; finally the error/success
counter steps, whose membership tests compare the raw `code` string
against the integer-valued members and therefore never fire. -/
def parseMSG (st : ParserState) (content : List Char) : PR :=
  match pySplit ',' 4 [] content with
  | [code, flags, count, msg, rest] =>
    match pyInt? code with
    | none => .error (st, intErr code)
    | some mc =>
      let st := { st with message_code := mc }
      match pyInt? flags with
      | none => .error (st, intErr flags)
      | some mf =>
        let st := { st with message_flags := mf }
        match pyInt? count with
        | none => .error (st, intErr count)
        | some cnt =>
          let st := if msg ≠ [] then { st with message := (⟨msg.filter (· ≠ '"')⟩ : String) } else st
          let fp : String × Option (List Char) :=
            match pySplit ',' 1 [] rest with
            | [f, p] => ((⟨f⟩ : String), some p)
            | _ => ((⟨rest⟩ : String), none)
          let st := { st with message_format := fp.1 }
          let withParams : PR :=
            if cnt ≠ 0 then
              match fp.2 with
              | some p =>
                .ok { st with message_params :=
                       (pySplit ',' (cnt - 1) [] p).map (fun x => (⟨x⟩ : String)) }
              | none => .error (st, "cannot access local variable params before assignment")
            else
              .ok { st with message_params := [] }
          match withParams with
          | .error e => .error e
          | .ok st =>
            if mf ∉ UI_MSG_values then
              .error (st, "The MSG flags value " ++ (⟨flags⟩ : String) ++ " was not found!")
            else if mc ∉ MSG_CODE_values then
              .error (st, "The MSG code value " ++ (⟨code⟩ : String) ++ " was not found!")
            else
              let st :=
                if MSG_CODE_ERRORS.any (fun n => pyStrEqInt (⟨code⟩ : String) n) then
                  { st with message_error_count := st.message_error_count + 1 }
                else st
              let st :=
                if MSG_CODE_SUCCESS.any (fun n => pyStrEqInt (⟨code⟩ : String) n) then
                  { st with message_success_count := st.message_success_count + 1,
                            message_error_count := 0 }
                else st
              .ok st
  | parts => .error (st, unpackErr 5 parts.length)

/-- The `PRGC`/`PRGT` decode rule (makemkv.py lines 391-401): code, title
number and name stored; the code validated as a `MSG_CODE` member and
stored in `operation`; the MSG-family flags/format/params reset. -/
def parsePRG (st : ParserState) (content : List Char) : PR :=
  match pySplit ',' 2 [] content with
  | [code, id, name] =>
    match pyInt? code with
    | none => .error (st, intErr code)
    | some mc =>
      let st := { st with message_code := mc }
      match pyInt? id with
      | none => .error (st, intErr id)
      | some tn =>
        let st := { st with title_number := tn,
                            message := (⟨name.filter (· ≠ '"')⟩ : String) }
        if mc ∉ MSG_CODE_values then
          .error (st, toString mc ++ " is not a valid MakeMKVMessage.MSG_CODE")
        else
          .ok { st with operation := .i mc, message_flags := -1,
                        message_format := "", message_params := [] }
  | parts => .error (st, unpackErr 3 parts.length)

/-- The `CINFO` decode rule (makemkv.py lines 404-409). -/
def parseCINFO (st : ParserState) (content : List Char) : PR :=
  match pySplit ',' 2 [] content with
  | [id, code, value] =>
    match pyInt? id with
    | none => .error (st, intErr id)
    | some i =>
      match pyInt? code with
      | none => .error (st, intErr code)
      | some _ =>
        match process_id i value with
        | .error e => .error (st, e)
        | .ok v =>
          if attrIdValid i then
            .ok { st with disc := dset st.disc i v }
          else
            .error (st, toString i ++ " is not a valid MakeMKVMessage.ATTR_ID")
  | parts => .error (st, unpackErr 3 parts.length)

/-- The "Add new title" block of the `TINFO`/`SINFO` decode rules
(makemkv.py lines 420-422 and 437-439): an unseen title number is bound to
a fresh dictionary holding only an empty `"streams"` map. -/
def create_title (titles : List (Int × TitleDict)) (t : Int) : List (Int × TitleDict) :=
  if (dget titles t).isNone then
    dset titles t [(TKey.streamsKey, TVal.streams [])]
  else titles

/-- The "Add new stream" block of the `SINFO` decode rule (makemkv.py
lines 442-443): an unseen stream number is bound to an empty dictionary. -/
def create_stream (m : List (Int × StreamDict)) (s : Int) : List (Int × StreamDict) :=
  if (dget m s).isNone then dset m s [] else m

/-- The `TINFO` decode rule (makemkv.py lines 412-425): the addressed title
is created with an empty `"streams"` map when unseen, then the attribute
is stored under its validated `ATTR_ID` (an invalid id raises after the
title was created). -/
def parseTINFO (st : ParserState) (content : List Char) : PR :=
  match pySplit ',' 3 [] content with
  | [tn, id, code, value] =>
    match pyInt? tn with
    | none => .error (st, intErr tn)
    | some t =>
      match pyInt? id with
      | none => .error (st, intErr id)
      | some i =>
        match pyInt? code with
        | none => .error (st, intErr code)
        | some _ =>
          match process_id i value with
          | .error e => .error (st, e)
          | .ok v =>
            let titles1 := create_title st.titles t
            let st := { st with titles := titles1 }
            match dget titles1 t with
            | none => .error (st, "KeyError")
            | some td =>
              if attrIdValid i then
                .ok { st with titles := dset titles1 t (dset td (TKey.attr i) (TVal.v v)) }
              else
                .error (st, toString i ++ " is not a valid MakeMKVMessage.ATTR_ID")
  | parts => .error (st, unpackErr 4 parts.length)

/-- The `SINFO` decode rule (makemkv.py lines 428-448): the addressed title
and stream are created when unseen (out-of-order arrival), then the
attribute is stored under its validated `ATTR_ID` (an invalid id raises
after the creations). -/
def parseSINFO (st : ParserState) (content : List Char) : PR :=
  match pySplit ',' 4 [] content with
  | [tn, sn, id, code, value] =>
    match pyInt? tn with
    | none => .error (st, intErr tn)
    | some t =>
      match pyInt? sn with
      | none => .error (st, intErr sn)
      | some s =>
        match pyInt? id with
        | none => .error (st, intErr id)
        | some i =>
          match pyInt? code with
          | none => .error (st, intErr code)
          | some _ =>
            match process_id i value with
            | .error e => .error (st, e)
            | .ok v =>
              let titles1 := create_title st.titles t
              match dget titles1 t with
              | none => .error ({ st with titles := titles1 }, "KeyError")
              | some td =>
                match dget td TKey.streamsKey with
                | some (TVal.streams m) =>
                  let m1 := create_stream m s
                  let td1 := dset td TKey.streamsKey (TVal.streams m1)
                  let titles2 := dset titles1 t td1
                  let st := { st with titles := titles2 }
                  match dget m1 s with
                  | none => .error (st, "KeyError")
                  | some sd =>
                    if attrIdValid i then
                      let titles3 :=
                        dset titles2 t
                          (dset td1 TKey.streamsKey
                            (TVal.streams (dset m1 s (dset sd i v))))
                      .ok { st with titles := titles3 }
                    else
                      .error (st, toString i ++ " is not a valid MakeMKVMessage.ATTR_ID")
                | _ => .error ({ st with titles := titles1 }, "KeyError")
  | parts => .error (st, unpackErr 5 parts.length)

/-- The `TCOUNT` decode rule (makemkv.py lines 451-452). -/
def parseTCOUNT (st : ParserState) (content : List Char) : PR :=
  match pyInt? content with
  | none => .error (st, intErr content)
  | some n => .ok { st with title_count := n }

/-- The body of the `try` block of `MakeMKVParser.parse` (makemkv.py lines
309-456): split off the tag (a line with no `:` raises the unpack
`ValueError` before `message_type` is assigned), store the tag, and
dispatch; an unknown tag stores the diagnostic "Unknown MakeMKV Type!"
message without raising. -/
def decodeLine (st : ParserState) (raw : String) : PR :=
  match pySplit ':' 1 [] raw.data with
  | [tag, content] =>
    let tagS : String := ⟨tag⟩
    let st := { st with message_type := tagS }
    if tagS = "PRGV" then parsePRGV st content
    else if tagS = "DRV" then parseDRV st content
    else if tagS = "MSG" then parseMSG st content
    else if tagS = "PRGC" ∨ tagS = "PRGT" then parsePRG st content
    else if tagS = "CINFO" then parseCINFO st content
    else if tagS = "TINFO" then parseTINFO st content
    else if tagS = "SINFO" then parseSINFO st content
    else if tagS = "TCOUNT" then parseTCOUNT st content
    else .ok { st with message := "Unknown MakeMKV Type! - " ++ raw }
  | _ => .error (st, unpackErr 2 1)

/-- `MakeMKVParser.parse` (makemkv.py lines 297-464): strip the line, store
it as `raw_message`, decode it; any exception is caught and recorded in
the `message` field as a diagnostic embedding the failure and the raw
line, with all mutations made before the raise left in place. -/
def parse (st : ParserState) (message : String) : ParserState :=
  let raw : String := ⟨pyStrip message.data⟩
  let st := { st with raw_message := raw }
  match decodeLine st raw with
  | .ok st1 => st1
  | .error (st1, e) =>
    { st1 with message := "Parsing Exception: " ++ e ++ "\nRaw Message: " ++ raw }

/-- The state visible after a decode step, whether or not it raised (the
`except` handler sees the partially-updated instance). -/
def stateOf : PR → ParserState
  | .ok st => st
  | .error (st, _) => st

/-! ## ripper.py — the title-filtering pass and the control flow of
`Ripper.rip`

For the filtering pass the parser's per-title dictionaries are abstracted
to the single attribute the pass reads, `ATTR_ID.Duration` (an integer
number of seconds): the title map is an insertion-ordered association list
from title number to duration. -/

/-- A Python exception raised by the filtering pass. -/
inductive PyErr where
  | runtimeError
  | keyError
deriving DecidableEq

/-- Python `dict.pop(key)` (no default): removes the entry or raises
`KeyError`. -/
def dict_pop (d : List (Int × Int)) (k : Int) : Except PyErr (List (Int × Int)) :=
  if (d.lookup k).isSome then .ok (d.eraseP (fun p => p.1 == k)) else .error .keyError

/-- `Ripper.movie_minimum` is the float `0.9`; `duration <
max_duration * 0.9` for integer durations is this exact comparison (for
the second-scale integers involved the float product rounds to a value on
the same side of every integer). -/
def below_movie_minimum (duration max_duration : Int) : Bool :=
  10 * duration < 9 * max_duration

/-- One CPython dict iteration step of the title-filtering loop of
`Ripper.rip` (ripper.py lines 332-348).  `order` is the key sequence of
the dictionary at iterator creation; a dict iterator compares the dict's
current size against its creation-time snapshot (`n0`) on every `next()`
call — including the final one that would end the loop — and raises
`RuntimeError` when they differ, so any `pop` poisons the rest of the
iteration.  The body reads the title's duration, pops the title when the
duration is below the minimum, pops again (`KeyError` on a repeat) when
above the maximum, updates the running maximum, and for feature-only
movies pops any title below `0.9 ×` the running maximum. -/
def filter_titles_loop (movie_feature : Bool) (minimum_duration maximum_duration : Int)
    (n0 : Nat) : List Int → List (Int × Int) → Int → Except PyErr (List (Int × Int))
  | [], d, _ => if d.length ≠ n0 then .error .runtimeError else .ok d
  | t :: rest, d, max_duration =>
    if d.length ≠ n0 then .error .runtimeError
    else
      match d.lookup t with
      | none => .error .keyError
      | some duration =>
        match (if duration < minimum_duration then dict_pop d t else .ok d) with
        | .error e => .error e
        | .ok d =>
          match (if duration > maximum_duration then dict_pop d t else .ok d) with
          | .error e => .error e
          | .ok d =>
            let max_duration := if duration ≥ max_duration then duration else max_duration
            match (if movie_feature && below_movie_minimum duration max_duration then
                     dict_pop d t
                   else .ok d) with
            | .error e => .error e
            | .ok d => filter_titles_loop movie_feature minimum_duration maximum_duration n0 rest d max_duration

/-- The title-filtering pass of `Ripper.rip` (ripper.py lines 331-348),
with `max_duration` starting at `0` and `movie_feature` standing for
`media_type == VIDEO_MOVIE and self.feature_only` (the source fixes
`feature_only = True`). -/
def filter_titles (titles : List (Int × Int)) (minimum_duration maximum_duration : Int)
    (movie_feature : Bool) : Except PyErr (List (Int × Int)) :=
  filter_titles_loop movie_feature minimum_duration maximum_duration titles.length
    (titles.map (·.1)) titles 0

/-- The value held by `Ripper.last_run_code`: an integer exit code, or —
after the extraction loop's `self.last_run_code = mmkv_mkv` (ripper.py
line 387, which stores the `GeneratorExit` wrapper object itself rather
than its `.code`) — the wrapper object, carrying the exit code it wraps. -/
inductive RunCode where
  | int (n : Int)
  | gen_exit_obj (code : Int)
deriving DecidableEq

/-- Python `==` between a `last_run_code` value and an `int`: an integer
compares by value; the `GeneratorExit` wrapper class defines no `__eq__`,
so it compares by identity and is never equal to an `int`. -/
def run_code_eq_int : RunCode → Int → Bool
  | .int n, m => n == m
  | .gen_exit_obj _, _ => false

/-- `Disc.CDS_DATA_1`. -/
def CDS_DATA_1 : Int := 101

/-- The externally observable outcome of one `Ripper.rip` run that the
temporal claim speaks about: how many times the unconditional
`self.disc.unlock_tray()` (ripper.py line 404) ran, whether the
`_eject` retry loop was entered (line 408), the final `last_run_code`,
and whether `rip` terminated by an uncaught exception. -/
structure RipOutcome where
  unlock_tray_calls : Nat
  eject_loop_entered : Bool
  last_run_code : RunCode
  raised : Bool
deriving DecidableEq

/-- The control flow of `Ripper.rip` (ripper.py lines 270-411) relevant to
tray handling, with the external world abstracted into inputs: the disc
status reported by `Disc.query`, the exit code of the `makemkvcon info`
run together with the title map the parser collected from it, and the exit
code of each `makemkvcon mkv` run.  Logging, directory creation, renaming
and remux profiles touch neither `last_run_code` nor the tray and are
omitted.  The modelled path: on `CDS_DATA_1` the info exit code is
recorded (`mmkv_info.code`, line 316); an empty title map returns early
(line 321) — before the unconditional unlock; the filtering pass may raise
out of `rip` (also skipping the unlock); otherwise each surviving title's
extraction stores the `GeneratorExit` wrapper object itself into
`last_run_code` (line 387); finally the tray is unlocked once and the
eject loop is entered iff `last_run_code == 0` and eject was requested
(lines 404-408). -/
def rip_model (disc_status : Int) (info_exit : Int) (titles : List (Int × Int))
    (mkv_exit : Int) (minimum_duration maximum_duration : Int)
    (movie_feature : Bool) (eject_on_rip : Bool) : RipOutcome :=
  let last_run_code : RunCode := .int (-1)
  if disc_status = CDS_DATA_1 then
    let last_run_code : RunCode := .int info_exit
    if titles.isEmpty then
      { unlock_tray_calls := 0, eject_loop_entered := false,
        last_run_code := last_run_code, raised := false }
    else
      match filter_titles titles minimum_duration maximum_duration movie_feature with
      | .error _ =>
        { unlock_tray_calls := 0, eject_loop_entered := false,
          last_run_code := last_run_code, raised := true }
      | .ok kept =>
        let last_run_code :=
          if kept.isEmpty then last_run_code else RunCode.gen_exit_obj mkv_exit
        { unlock_tray_calls := 1,
          eject_loop_entered := run_code_eq_int last_run_code 0 && eject_on_rip,
          last_run_code := last_run_code, raised := false }
  else
    { unlock_tray_calls := 1,
      eject_loop_entered := run_code_eq_int last_run_code 0 && eject_on_rip,
      last_run_code := last_run_code, raised := false }

/-- The elements of a list that survive the symlink-deduplication pass, in
traversal order: an element is dropped exactly when a later element of the
list resolves to the same target (used to characterize
`symlink_dedup_pass`, which traverses the reversed symlink list). -/
def drop_resolved_dups (fs : DevFS) : List Nat → List Nat
  | [] => []
  | x :: xs =>
    if fs.resolve x ∈ xs.map fs.resolve then drop_resolved_dups fs xs
    else x :: drop_resolved_dups fs xs

/-- Shape invariant of the parser's title map: every title dictionary binds
the `"streams"` key to a stream map. -/
def titlesShapeOK (titles : List (Int × TitleDict)) : Prop :=
  ∀ p ∈ titles, ∃ m, dget p.2 TKey.streamsKey = some (TVal.streams m)

/-- A title map has a given stream of a given title. -/
def titleHasStream (titles : List (Int × TitleDict)) (t s : Int) : Prop :=
  ∃ td m, dget titles t = some td ∧ dget td TKey.streamsKey = some (TVal.streams m)
    ∧ (dget m s).isSome = true

/-! ## General helper lemmas -/

theorem mem_pyInsert {lt : α → α → Bool} {x a : α} {l : List α} :
    a ∈ pyInsert lt x l ↔ a = x ∨ a ∈ l := by
  induction l with
  | nil => simp [pyInsert]
  | cons y ys ih =>
    simp only [pyInsert]
    by_cases h : lt y x = true
    · rw [if_pos h]
      simp only [List.mem_cons, ih]
      tauto
    · rw [if_neg h]
      simp only [List.mem_cons]

theorem mem_pySorted {lt : α → α → Bool} {a : α} {l : List α} :
    a ∈ pySorted lt l ↔ a ∈ l := by
  induction l with
  | nil => simp [pySorted]
  | cons y ys ih =>
    simp only [pySorted, List.foldr] at *
    rw [mem_pyInsert, ih, List.mem_cons]

theorem length_pyInsert {lt : α → α → Bool} (x : α) (l : List α) :
    (pyInsert lt x l).length = l.length + 1 := by
  induction l with
  | nil => rfl
  | cons y ys ih =>
    by_cases h : lt y x = true
    · simp only [pyInsert, if_pos h, List.length_cons, ih]
    · simp only [pyInsert, if_neg h, List.length_cons]

theorem length_pySorted {lt : α → α → Bool} (l : List α) :
    (pySorted lt l).length = l.length := by
  induction l with
  | nil => rfl
  | cons y ys ih =>
    simp only [pySorted, List.foldr] at *
    rw [length_pyInsert, ih, List.length_cons]

/-- Inserting into a list sorted by descending frame count preserves the
ordering. -/
theorem pairwise_pyInsert_frames {x : StreamData} {l : List StreamData}
    (h : l.Pairwise (fun a b => b.frames ≤ a.frames)) :
    (pyInsert (fun a b : StreamData => a.frames > b.frames) x l).Pairwise
      (fun a b => b.frames ≤ a.frames) := by
  induction l with
  | nil => simp [pyInsert]
  | cons y ys ih =>
    rcases List.pairwise_cons.mp h with ⟨hy, hys⟩
    simp only [pyInsert]
    by_cases hc : y.frames > x.frames
    · rw [if_pos (by simpa using hc)]
      refine List.pairwise_cons.mpr ⟨?_, ih hys⟩
      intro z hz
      rcases mem_pyInsert.mp hz with rfl | hz
      · omega
      · exact hy z hz
    · rw [if_neg (by simpa using hc)]
      refine List.pairwise_cons.mpr ⟨?_, h⟩
      intro z hz
      rcases List.mem_cons.mp hz with rfl | hz
      · omega
      · have := hy z hz
        omega

theorem pairwise_pySorted_frames (l : List StreamData) :
    (pySorted (fun a b : StreamData => a.frames > b.frames) l).Pairwise
      (fun a b => b.frames ≤ a.frames) := by
  induction l with
  | nil => simp [pySorted]
  | cons y ys ih => exact pairwise_pyInsert_frames ih

/-! ## Claim C5 — "und" fallback of remux_by_language -/

/-- C5: for every stream list and requested language list,
`remux_by_language` adds `"und"` to a type's effective language list iff
`"und"` was not already requested for that type and some requested
language of that type has no matching stream of that type; in particular a
file whose only audio stream is `eng` with audio filter `{eng}` gets no
`"und"` added, while audio streams `{eng, und}` with filter `{jpn}` get
`"und"` added. -/
theorem remux_und_fallback_iff :
    (∀ (streams : List StreamData) (languages : List String) (stream_type : String),
      remux_effective_languages streams languages stream_type = languages ++ [LANG_UND]
        ↔ (LANG_UND ∉ languages ∧ ∃ l ∈ languages,
            ∀ x ∈ streams, ¬(x.language = l ∧ x.type = stream_type)))
    ∧ remux_effective_languages [⟨ STREAM_AUDIO, "eng", 1, 11, 0, false⟩] ["eng"] STREAM_AUDIO
        = ["eng"]
    ∧ remux_effective_languages
        [⟨ STREAM_AUDIO, "eng", 1, 11, 0, false⟩, ⟨ STREAM_AUDIO, "und", 2, 12, 0, false⟩]
        ["jpn"] STREAM_AUDIO = ["jpn", LANG_UND] := by
  refine ⟨?_, by decide, by decide⟩
  intro streams languages stream_type
  have hne : languages ≠ languages ++ [LANG_UND] := by
    intro h
    have := congrArg List.length h
    simp at this
  unfold remux_effective_languages
  by_cases hin : LANG_UND ∈ languages
  · rw [if_pos hin]
    exact ⟨fun h => absurd h hne, fun ⟨h, _⟩ => absurd hin h⟩
  · rw [if_neg hin]
    by_cases hany : languages.any (fun language =>
        (streams.filter (fun x => x.language == language && x.type == stream_type)).isEmpty)
        = true
    · rw [if_pos hany]
      refine ⟨fun _ => ⟨hin, ?_⟩, fun _ => rfl⟩
      rcases List.any_eq_true.mp hany with ⟨l, hl, hcond⟩
      refine ⟨l, hl, fun x hx hx2 => ?_⟩
      have hnil : streams.filter (fun x => x.language == l && x.type == stream_type) = [] := by
        simpa [List.isEmpty_iff] using hcond
      have hmem : x ∈ streams.filter (fun x => x.language == l && x.type == stream_type) :=
        List.mem_filter.mpr ⟨hx, by simp [hx2.1, hx2.2]⟩
      rw [hnil] at hmem
      exact absurd hmem (List.not_mem_nil x)
    · rw [if_neg hany]
      refine ⟨fun h => absurd h hne, ?_⟩
      rintro ⟨-, l, hl, hno⟩
      exfalso
      apply hany
      refine List.any_eq_true.mpr ⟨l, hl, ?_⟩
      simp only [List.isEmpty_iff]
      rw [List.filter_eq_nil_iff]
      intro x hx
      simp only [Bool.and_eq_true, beq_iff_eq, not_and]
      intro h1 h2
      exact hno x hx ⟨h1, h2⟩

/-! ## Claim C8 — Disc equality -/

/-- C8 counterexample: a symlink `Disc` compares equal to a raw-path `Disc`
whose resolved path is different, so equality is not "same resolved
canonical path". -/
theorem disc_eq_symlink_counterexample :
    disc_eq ⟨"/dev/dvd", true, "/dev/dvd", "/dev/sr0"⟩
        ⟨"/dev/sr1", false, "/dev/sr1", "/dev/sr1"⟩ = true
    ∧ (DiscPath.mk "/dev/dvd" true "/dev/dvd" "/dev/sr0").resolved_path
        ≠ (DiscPath.mk "/dev/sr1" false "/dev/sr1" "/dev/sr1").resolved_path := by
  decide

/-- C8 amended: `Disc.__eq__` holds iff both paths are symbolic links with
equal `absolute()` (unresolved) forms, or the left path is a symbolic link
and the right is not (unconditionally), or the left path is not a symbolic
link and the raw paths are equal; resolved canonical paths are never
consulted. -/
theorem disc_eq_characterization :
    ∀ a b : DiscPath,
      disc_eq a b = true ↔
        ((a.is_symlink = true ∧ b.is_symlink = true ∧ a.absolute_path = b.absolute_path)
          ∨ (a.is_symlink = true ∧ b.is_symlink = false)
          ∨ (a.is_symlink = false ∧ a.path = b.path)) := by
  intro a b
  unfold disc_eq
  cases ha : a.is_symlink <;> cases hb : b.is_symlink <;>
    simp [ha, hb, beq_iff_eq]

/-! ## Claim C3 — the title-filtering pass of Ripper.rip -/

/-- C3 (code bug exhibit): the filtering pass pops entries of the very
dictionary it is iterating, so any drop poisons the iteration.  A single
too-short title raises `RuntimeError` (dictionary changed size during
iteration); under the movie feature-only rule a short title after a long
one is popped twice in one body, raising `KeyError`; the pass completes
only when nothing is dropped. -/
theorem ripper_title_filter_raises :
    filter_titles [(0, 500)] 900 99999 false = .error .runtimeError
    ∧ filter_titles [(0, 4000), (1, 500)] 900 99999 true = .error .keyError
    ∧ filter_titles [(0, 1000)] 900 99999 false = .ok [(0, 1000)] :=
  ⟨rfl, rfl, rfl⟩

/-! ## Claim C4 — tray unlock and eject in Ripper.rip -/

/-- C4 (code bug exhibit): on the `CDS_DATA_1` path with an empty title
map, `rip` returns before the "always unlock the disc tray" step, so the
unlock is never attempted; and after a successful extraction
(`makemkvcon` exit code 0, eject requested) `last_run_code` holds the
`GeneratorExit` wrapper object rather than its `.code`, so the
`last_run_code == 0` test is false and the eject loop is never entered. -/
theorem ripper_unlock_eject_divergence :
    (rip_model CDS_DATA_1 0 [] 0 900 99999 false true).unlock_tray_calls = 0
    ∧ (rip_model CDS_DATA_1 0 [(0, 1000)] 0 900 99999 false true).eject_loop_entered = false
    ∧ (rip_model CDS_DATA_1 0 [(0, 1000)] 0 900 99999 false true).last_run_code
        = RunCode.gen_exit_obj 0
    ∧ (rip_model CDS_DATA_1 0 [(0, 1000)] 0 900 99999 false true).unlock_tray_calls = 1 := by
  decide

/-! ## Claim C9 — chapter gap detection -/

theorem detect_gaps_scan_eq_any (p : ChapterData) (l : List ChapterData) :
    detect_gaps_scan (some p) l
      = ((p :: l).zip l).any (fun q => decide (q.2.start_time - q.1.end_time > 0)) := by
  induction l generalizing p with
  | nil => rfl
  | cons c rest ih =>
    rw [List.zip_cons_cons, List.any_cons]
    show (if c.start_time - p.end_time > 0 then true else detect_gaps_scan (some c) rest) = _
    by_cases h : c.start_time - p.end_time > 0
    · rw [if_pos h]
      simp [h]
    · rw [if_neg h]
      simp [h, ih c]

/-- C9: gap detection returns `true` iff, after sorting by start time, some
pair of consecutive chapters has the next chapter's start time strictly
greater than the previous chapter's end time; chapters
`[(0,10),(10,20)]` yield no gap and `[(0,10),(15,20)]` yield a gap. -/
theorem chapter_gap_detection_iff :
    (∀ chapters : List ChapterData,
      detect_chapter_gaps chapters = true ↔
        ∃ q ∈ (pySorted chapter_lt chapters).zip (pySorted chapter_lt chapters).tail,
          q.2.start_time > q.1.end_time)
    ∧ detect_chapter_gaps [⟨0, 10⟩, ⟨10, 20⟩] = false
    ∧ detect_chapter_gaps [⟨0, 10⟩, ⟨15, 20⟩] = true := by
  refine ⟨?_, ?_, ?_⟩
  · intro chapters
    unfold detect_chapter_gaps
    cases hs : pySorted chapter_lt chapters with
    | nil => simp [detect_gaps_scan]
    | cons c rest =>
      rw [show detect_gaps_scan none (c :: rest) = detect_gaps_scan (some c) rest from rfl]
      rw [detect_gaps_scan_eq_any, List.any_eq_true, List.tail_cons]
      constructor
      · rintro ⟨q, hq, hgt⟩
        refine ⟨q, hq, ?_⟩
        have := of_decide_eq_true hgt
        simp only [gt_iff_lt] at this ⊢
        linarith [this]
      · rintro ⟨q, hq, hgt⟩
        refine ⟨q, hq, decide_eq_true ?_⟩
        simp only [gt_iff_lt] at hgt ⊢
        linarith [hgt]
  · show detect_gaps_scan none (pySorted chapter_lt [⟨0, 10⟩, ⟨10, 20⟩]) = false
    have h1 : pySorted chapter_lt [(⟨0, 10⟩ : ChapterData), ⟨10, 20⟩]
        = [⟨0, 10⟩, ⟨10, 20⟩] := by
      show pyInsert chapter_lt ⟨0, 10⟩ (pyInsert chapter_lt ⟨10, 20⟩ []) = _
      norm_num [pyInsert, chapter_lt]
    rw [h1]
    show (if (10 : ℚ) - 10 > 0 then true else false) = false
    norm_num
  · show detect_gaps_scan none (pySorted chapter_lt [⟨0, 10⟩, ⟨15, 20⟩]) = true
    have h1 : pySorted chapter_lt [(⟨0, 10⟩ : ChapterData), ⟨15, 20⟩]
        = [⟨0, 10⟩, ⟨15, 20⟩] := by
      show pyInsert chapter_lt ⟨0, 10⟩ (pyInsert chapter_lt ⟨15, 20⟩ []) = _
      norm_num [pyInsert, chapter_lt]
    rw [h1]
    show (if (15 : ℚ) - 10 > 0 then true else false) = true
    norm_num

/-! ## Claim C6 — default subtitle selection by maximum frame count -/

theorem head_pySorted_frames_max {l rest : List StreamData} {c : StreamData}
    (h : pySorted (fun a b : StreamData => a.frames > b.frames) l = c :: rest) :
    ∀ a ∈ l, a.frames ≤ c.frames := by
  intro a ha
  have ha' : a ∈ c :: rest := by
    rw [← h]
    exact mem_pySorted.mpr ha
  rcases List.mem_cons.mp ha' with rfl | ha' 
  · exact le_refl _
  · have hp := pairwise_pySorted_frames l
    rw [h] at hp
    exact (List.pairwise_cons.mp hp).1 a ha'

/-- C6: when the default-selection operation is invoked for subtitles and
more than one candidate of the requested type and language exists, the
chosen default stream is a candidate with the maximum frame count, and a
track edit is issued exactly when the chosen stream is not already
default; among subtitle candidates with frame counts `[5, 500, 50]` the
selected default has frame count 500. -/
theorem default_subtitle_max_frames :
    (∀ (all_streams : List StreamData) (language : String) (default_required : Bool),
      1 < ((all_streams.filter
            (fun x => x.type == STREAM_SUBTITLES && x.language == language)).length) →
      ∃ stream edit,
        set_default_stream_choice all_streams language STREAM_SUBTITLES default_required
          = some (stream, edit)
        ∧ stream ∈ all_streams.filter
            (fun x => x.type == STREAM_SUBTITLES && x.language == language)
        ∧ (∀ c ∈ all_streams.filter
            (fun x => x.type == STREAM_SUBTITLES && x.language == language),
            c.frames ≤ stream.frames)
        ∧ edit = !stream.default)
    ∧ set_default_stream_choice
        [⟨STREAM_SUBTITLES, "eng", 1, 11, 5, false⟩,
         ⟨STREAM_SUBTITLES, "eng", 2, 12, 500, false⟩,
         ⟨STREAM_SUBTITLES, "eng", 3, 13, 50, false⟩] "eng" STREAM_SUBTITLES false
        = some (⟨STREAM_SUBTITLES, "eng", 2, 12, 500, false⟩, true) := by
  constructor
  · intro all_streams language default_required hlen
    simp only [set_default_stream_choice]
    set cands := all_streams.filter
      (fun x => x.type == STREAM_SUBTITLES && x.language == language) with hcands
    have hne : cands.isEmpty = false := by
      cases hc : cands with
      | nil => rw [hc] at hlen; simp at hlen
      | cons _ _ => rfl
    simp only [hne, Bool.false_and, Bool.false_eq_true, if_false, beq_self_eq_true, if_true]
    cases hsort : pySorted (fun a b : StreamData => a.frames > b.frames) cands with
    | nil =>
      exfalso
      have hlength := @length_pySorted _ (fun a b : StreamData => a.frames > b.frames) cands
      rw [hsort] at hlength
      simp only [List.length_nil] at hlength
      omega
    | cons c rest =>
      refine ⟨c, !c.default, rfl, ?_, ?_, rfl⟩
      · have : c ∈ c :: rest := List.mem_cons_self c rest
        rw [← hsort] at this
        exact mem_pySorted.mp this
      · exact head_pySorted_frames_max hsort
  · decide

/-- C6 witness: the theorem applied to the three-candidate stream list of
the claim's example. -/
theorem default_subtitle_max_frames_witness :
    1 < (([⟨STREAM_SUBTITLES, "eng", 1, 11, 5, false⟩,
           ⟨STREAM_SUBTITLES, "eng", 2, 12, 500, false⟩,
           ⟨STREAM_SUBTITLES, "eng", 3, 13, 50, false⟩].filter
          (fun x : StreamData => x.type == STREAM_SUBTITLES && x.language == "eng")).length)
    ∧ (∃ stream edit,
        set_default_stream_choice
          [⟨STREAM_SUBTITLES, "eng", 1, 11, 5, false⟩,
           ⟨STREAM_SUBTITLES, "eng", 2, 12, 500, false⟩,
           ⟨STREAM_SUBTITLES, "eng", 3, 13, 50, false⟩] "eng" STREAM_SUBTITLES false
          = some (stream, edit)
        ∧ stream ∈ [⟨STREAM_SUBTITLES, "eng", 1, 11, 5, false⟩,
           ⟨STREAM_SUBTITLES, "eng", 2, 12, 500, false⟩,
           ⟨STREAM_SUBTITLES, "eng", 3, 13, 50, false⟩].filter
            (fun x : StreamData => x.type == STREAM_SUBTITLES && x.language == "eng")
        ∧ (∀ c ∈ [⟨STREAM_SUBTITLES, "eng", 1, 11, 5, false⟩,
           ⟨STREAM_SUBTITLES, "eng", 2, 12, 500, false⟩,
           ⟨STREAM_SUBTITLES, "eng", 3, 13, 50, false⟩].filter
            (fun x : StreamData => x.type == STREAM_SUBTITLES && x.language == "eng"),
            c.frames ≤ stream.frames)
        ∧ edit = !stream.default) :=
  ⟨by decide,
   default_subtitle_max_frames.1
     [⟨STREAM_SUBTITLES, "eng", 1, 11, 5, false⟩,
      ⟨STREAM_SUBTITLES, "eng", 2, 12, 500, false⟩,
      ⟨STREAM_SUBTITLES, "eng", 3, 13, 50, false⟩] "eng" false (by decide)⟩

/-! ## Claim C7 — process_disc_devices keeps symlinks over raw paths -/

theorem symlink_dedup_pass_eq (fs : DevFS) :
    ∀ (pending surv : List Nat),
      (∀ y ∈ surv, fs.resolve y ∉ pending.map fs.resolve) →
      symlink_dedup_pass fs pending (surv ++ pending)
        = surv ++ drop_resolved_dups fs pending := by
  intro pending
  induction pending with
  | nil =>
    intro surv _
    simp [symlink_dedup_pass, drop_resolved_dups]
  | cons x rest ih =>
    intro surv hinv
    have hxsurv : fs.resolve x ∉ surv.map fs.resolve := by
      intro hmem
      rcases List.mem_map.mp hmem with ⟨y, hy, hres⟩
      exact hinv y hy (by rw [hres]; exact List.mem_map_of_mem fs.resolve (List.mem_cons_self x rest))
    have hxne : x ∉ surv := fun hx => hxsurv (List.mem_map_of_mem fs.resolve hx)
    have hcount : ((surv ++ x :: rest).map fs.resolve).count (fs.resolve x)
        = (rest.map fs.resolve).count (fs.resolve x) + 1 := by
      rw [List.map_append, List.count_append, List.map_cons, List.count_cons_self]
      have h0 : (surv.map fs.resolve).count (fs.resolve x) = 0 :=
        List.count_eq_zero.mpr hxsurv
      omega
    show symlink_dedup_pass fs (x :: rest) (surv ++ x :: rest) = _
    rw [symlink_dedup_pass]
    by_cases hdup : fs.resolve x ∈ rest.map fs.resolve
    · have hc1 : ((surv ++ x :: rest).map fs.resolve).count (fs.resolve x) > 1 := by
        have := List.count_pos_iff.mpr hdup
        omega
      rw [if_pos hc1]
      have herase : (surv ++ x :: rest).erase x = surv ++ rest := by
        rw [List.erase_append_right _ hxne, List.erase_cons_head]
      rw [herase, ih surv (fun y hy =>
        fun hmem => hinv y hy (by
          rcases List.mem_map.mp hmem with ⟨z, hz, hres⟩
          exact List.mem_map.mpr ⟨z, List.mem_cons_of_mem x hz, hres⟩))]
      rw [drop_resolved_dups, if_pos hdup]
    · have hc1 : ¬(((surv ++ x :: rest).map fs.resolve).count (fs.resolve x) > 1) := by
        have : (rest.map fs.resolve).count (fs.resolve x) = 0 :=
          List.count_eq_zero.mpr hdup
        omega
      rw [if_neg hc1]
      have hassoc : surv ++ x :: rest = (surv ++ [x]) ++ rest := by
        rw [List.append_assoc]
        rfl
      rw [hassoc, ih (surv ++ [x]) ?_]
      · rw [drop_resolved_dups, if_neg hdup, List.append_assoc]
        rfl
      · intro y hy
        rcases List.mem_append.mp hy with hy | hy
        · exact fun hmem => hinv y hy (by
            rcases List.mem_map.mp hmem with ⟨z, hz, hres⟩
            exact List.mem_map.mpr ⟨z, List.mem_cons_of_mem x hz, hres⟩)
        · rcases List.mem_singleton.mp hy with rfl
          exact hdup


theorem mem_drop_resolved_dups (fs : DevFS) (y : Nat) :
    ∀ l : List Nat,
      y ∈ drop_resolved_dups fs l
        ↔ l.reverse.find? (fun z => fs.resolve z == fs.resolve y) = some y := by
  intro l
  induction l with
  | nil => simp [drop_resolved_dups]
  | cons x m ih =>
    rw [drop_resolved_dups]
    rw [show (x :: m).reverse = m.reverse ++ [x] from by simp]
    rw [List.find?_append]
    by_cases hdup : fs.resolve x ∈ m.map fs.resolve
    · rw [if_pos hdup, ih]
      cases hfind : m.reverse.find? (fun z => fs.resolve z == fs.resolve y) with
      | some z => simp [Option.or]
      | none =>
        simp only [Option.or]
        constructor
        · intro h
          exact absurd h (by simp)
        · intro h
          exfalso
          by_cases hb : (fs.resolve x == fs.resolve y) = true
          · simp only [List.find?, hb] at h
            have hxy : x = y := Option.some.inj h
            rcases List.mem_map.mp hdup with ⟨w, hw, hres⟩
            have hnone := List.find?_eq_none.mp hfind w (List.mem_reverse.mpr hw)
            apply hnone
            rw [beq_iff_eq, hres, hxy]
          · rw [Bool.not_eq_true] at hb
            simp only [List.find?, hb] at h
            exact absurd h (by simp)
    · rw [if_neg hdup, List.mem_cons, ih]
      cases hfind : m.reverse.find? (fun z => fs.resolve z == fs.resolve y) with
      | some z =>
        simp only [Option.or]
        constructor
        · rintro (rfl | h)
          · exfalso
            have hz := List.mem_of_find?_eq_some hfind
            have hzp := List.find?_some hfind
            rw [beq_iff_eq] at hzp
            apply hdup
            rw [← hzp]
            exact List.mem_map_of_mem fs.resolve (List.mem_reverse.mp hz)
          · exact h
        · exact fun h => Or.inr h
      | none =>
        simp only [Option.or]
        constructor
        · rintro (rfl | h)
          · simp [List.find?]
          · exact absurd h (by simp)
        · intro h
          by_cases hb : (fs.resolve x == fs.resolve y) = true
          · simp only [List.find?, hb] at h
            exact Or.inl (Option.some.inj h).symm
          · rw [Bool.not_eq_true] at hb
            simp only [List.find?, hb] at h
            exact absurd h (by simp)

/-- Exactly the first symlink per resolved target survives the
deduplication pass. -/
theorem mem_symlink_survivors (fs : DevFS) (symlinks : List Nat) (y : Nat) :
    y ∈ (symlink_dedup_pass fs symlinks.reverse symlinks.reverse).reverse
      ↔ symlinks.find? (fun z => fs.resolve z == fs.resolve y) = some y := by
  have h := symlink_dedup_pass_eq fs symlinks.reverse [] (by simp)
  simp only [List.nil_append] at h
  rw [h, List.mem_reverse, mem_drop_resolved_dups, List.reverse_reverse]

theorem not_mem_direct_remove_pass (fs : DevFS) {a : Nat} :
    ∀ (rs l : List Nat), a ∉ l → a ∉ direct_remove_pass fs rs l := by
  intro rs
  induction rs with
  | nil => intro l ha; exact ha
  | cons d rest ih =>
    intro l ha
    rw [direct_remove_pass]
    by_cases hc : d ∈ l.map fs.resolve
    · rw [if_pos hc]
      exact ih _ (fun hmem => ha (List.erase_subset _ _ hmem))
    · rw [if_neg hc]
      exact ih _ ha

theorem direct_remove_pass_subset (fs : DevFS) :
    ∀ (rs l : List Nat), direct_remove_pass fs rs l ⊆ l := by
  intro rs
  induction rs with
  | nil => intro l; exact fun _ h => h
  | cons d rest ih =>
    intro l
    rw [direct_remove_pass]
    by_cases hc : d ∈ l.map fs.resolve
    · rw [if_pos hc]
      exact fun a ha => List.erase_subset _ _ (ih _ ha)
    · rw [if_neg hc]
      exact ih _

/-- A raw path that some processed resolved symlink targets is removed by
the raw-path removal loop (for raw paths that resolve to themselves). -/
theorem not_mem_direct_remove_pass_of_target (fs : DevFS) :
    ∀ (rs l : List Nat) (r : Nat), r ∈ rs → l.Nodup → (∀ x ∈ l, fs.resolve x = x) →
      r ∉ direct_remove_pass fs rs l := by
  intro rs
  induction rs with
  | nil =>
    intro l r hr
    exact absurd hr (List.not_mem_nil r)
  | cons d rest ih =>
    intro l r hr hnodup hres
    have hmap : l.map fs.resolve = l := by
      rw [List.map_congr_left hres]
      simp
    rw [direct_remove_pass, hmap]
    rcases List.mem_cons.mp hr with rfl | hr
    · by_cases hrl : r ∈ l
      · rw [if_pos hrl]
        apply not_mem_direct_remove_pass
        intro hmem
        exact ((hnodup.mem_erase_iff).mp hmem).1 rfl
      · rw [if_neg hrl]
        exact not_mem_direct_remove_pass fs rest l hrl
    · by_cases hdl : d ∈ l
      · rw [if_pos hdl]
        exact ih _ r hr (hnodup.erase d)
          (fun x hx => hres x (List.erase_subset _ _ hx))
      · rw [if_neg hdl]
        exact ih _ r hr hnodup hres

/-- C7: for every explicitly supplied device list containing both a raw
block-device path and a symbolic link resolving to it,
`process_disc_devices` returns a list that does not contain the raw path
and does contain the first symlink (in supplied order) resolving to that
device; every later symlink resolving to the same device is dropped. -/
theorem process_disc_devices_prefers_symlinks :
    ∀ (fs : DevFS) (devices : List Nat) (r s : Nat),
      r ∈ devices → s ∈ devices →
      fs.is_block r = true → fs.is_link r = false →
      fs.is_block s = true → fs.is_link s = true →
      fs.resolve s = r →
      r ∉ process_disc_devices fs devices
      ∧ (∃ y, ((devices.filter fs.is_block).filter fs.is_link).find?
            (fun z => fs.resolve z == r) = some y
          ∧ y ∈ process_disc_devices fs devices)
      ∧ (∀ y ∈ (devices.filter fs.is_block).filter fs.is_link,
          fs.resolve y = r →
          ((devices.filter fs.is_block).filter fs.is_link).find?
              (fun z => fs.resolve z == r) ≠ some y →
          y ∉ process_disc_devices fs devices) := by
  intro fs devices r s hrdev hsdev hrblock hrlink hsblock hslink hsres
  set symlinksF := (devices.filter fs.is_block).filter fs.is_link with hsymF
  set directF := ((devices.filter fs.is_block).filter (fun x => !fs.is_link x)).dedup
    with hdirF
  set S := (symlink_dedup_pass fs symlinksF.reverse symlinksF.reverse).reverse with hS
  set D := direct_remove_pass fs (S.map fs.resolve) directF with hD
  have hout : process_disc_devices fs devices = pySorted (fun a b => a < b) (S ++ D) := rfl
  have hSsub : ∀ y ∈ S, y ∈ symlinksF := by
    intro y hy
    exact List.mem_of_find?_eq_some ((mem_symlink_survivors fs symlinksF y).mp hy)
  have hsF : s ∈ symlinksF := by
    rw [hsymF]
    exact List.mem_filter.mpr ⟨List.mem_filter.mpr ⟨hsdev, hsblock⟩, hslink⟩
  -- the first symlink resolving to r
  have hfound : (symlinksF.find? (fun z => fs.resolve z == r)).isSome = true := by
    rw [List.find?_isSome]
    exact ⟨s, hsF, by rw [hsres]; exact beq_self_eq_true r⟩
  rcases Option.isSome_iff_exists.mp hfound with ⟨y0, hy0⟩
  have hy0res : fs.resolve y0 = r := by
    have := List.find?_some hy0
    rwa [beq_iff_eq] at this
  have hy0S : y0 ∈ S := by
    rw [hS, mem_symlink_survivors, hy0res]
    exact hy0
  have hdirF_res : ∀ x ∈ directF, fs.resolve x = x := by
    intro x hx
    have hx2 : x ∈ (devices.filter fs.is_block).filter (fun x => !fs.is_link x) :=
      List.mem_dedup.mp hx
    have := (List.mem_filter.mp hx2).2
    rw [Bool.not_eq_true'] at this
    rw [DevFS.resolve, this]
    rfl
  refine ⟨?_, ⟨y0, hy0, ?_⟩, ?_⟩
  · -- the raw path is dropped
    rw [hout]
    intro hmem
    rcases List.mem_append.mp (mem_pySorted.mp hmem) with hmem | hmem
    · have := (List.mem_filter.mp (hSsub r hmem)).2
      rw [hrlink] at this
      exact Bool.false_ne_true this
    · have hrD : r ∉ D := by
        rw [hD]
        apply not_mem_direct_remove_pass_of_target
        · exact List.mem_map.mpr ⟨y0, hy0S, hy0res⟩
        · exact List.nodup_dedup _
        · exact hdirF_res
      exact hrD hmem
  · -- the first symlink survives
    rw [hout]
    exact mem_pySorted.mpr (List.mem_append.mpr (Or.inl hy0S))
  · -- later symlinks with the same target are dropped
    intro y hyF hyres hynotfirst
    rw [hout]
    intro hmem
    rcases List.mem_append.mp (mem_pySorted.mp hmem) with hmem | hmem
    · rw [hS, mem_symlink_survivors, hyres] at hmem
      exact hynotfirst hmem
    · have hyD : y ∈ directF := direct_remove_pass_subset fs _ _ hmem
      have hy2 : y ∈ (devices.filter fs.is_block).filter (fun x => !fs.is_link x) :=
        List.mem_dedup.mp hyD
      have hnl := (List.mem_filter.mp hy2).2
      have hl := (List.mem_filter.mp hyF).2
      rw [hl] at hnl
      simp at hnl

/-- C7 witness: raw path 0 with two symlinks (1 and 2) resolving to it; the
raw path is dropped from the published device list. -/
theorem process_disc_devices_prefers_symlinks_witness :
    (DevFS.is_link ⟨fun _ => true, fun p => decide (0 < p), fun _ => 0⟩ 0 = false)
    ∧ (DevFS.is_link ⟨fun _ => true, fun p => decide (0 < p), fun _ => 0⟩ 1 = true)
    ∧ (DevFS.resolve ⟨fun _ => true, fun p => decide (0 < p), fun _ => 0⟩ 1 = 0)
    ∧ (0 : Nat) ∉ process_disc_devices
        ⟨fun _ => true, fun p => decide (0 < p), fun _ => 0⟩ [0, 1, 2] :=
  ⟨by decide, by decide, by decide,
   (process_disc_devices_prefers_symlinks
     ⟨fun _ => true, fun p => decide (0 < p), fun _ => 0⟩
     [0, 1, 2] 0 1 (by decide) (by decide) (by decide) (by decide) (by decide)
     (by decide) (by decide)).1⟩

/-! ## Claims C1, C2, C10 — per-tag decode lemmas -/

theorem counters_parsePRGV (st : ParserState) (c : List Char) :
    (stateOf (parsePRGV st c)).message_error_count = st.message_error_count
    ∧ (stateOf (parsePRGV st c)).message_success_count = st.message_success_count := by
  unfold parsePRGV
  repeat' split
  all_goals simp_all [stateOf]

theorem counters_parseDRV (st : ParserState) (c : List Char) :
    (stateOf (parseDRV st c)).message_error_count = st.message_error_count
    ∧ (stateOf (parseDRV st c)).message_success_count = st.message_success_count := by
  unfold parseDRV
  repeat' split
  all_goals simp_all [stateOf]

set_option maxHeartbeats 2000000 in
theorem counters_parseMSG (st : ParserState) (c : List Char) :
    (stateOf (parseMSG st c)).message_error_count = st.message_error_count
    ∧ (stateOf (parseMSG st c)).message_success_count = st.message_success_count := by
  unfold parseMSG
  repeat' split
  all_goals try exact ⟨rfl, rfl⟩
  all_goals simp_all [pyStrEqInt]

theorem counters_parsePRG (st : ParserState) (c : List Char) :
    (stateOf (parsePRG st c)).message_error_count = st.message_error_count
    ∧ (stateOf (parsePRG st c)).message_success_count = st.message_success_count := by
  unfold parsePRG
  repeat' split
  all_goals simp_all [stateOf]

theorem counters_parseCINFO (st : ParserState) (c : List Char) :
    (stateOf (parseCINFO st c)).message_error_count = st.message_error_count
    ∧ (stateOf (parseCINFO st c)).message_success_count = st.message_success_count := by
  unfold parseCINFO
  repeat' split
  all_goals simp_all [stateOf]

set_option maxHeartbeats 1000000 in
theorem counters_parseTINFO (st : ParserState) (c : List Char) :
    (stateOf (parseTINFO st c)).message_error_count = st.message_error_count
    ∧ (stateOf (parseTINFO st c)).message_success_count = st.message_success_count := by
  simp only [parseTINFO]
  repeat' split
  all_goals exact ⟨rfl, rfl⟩

set_option maxHeartbeats 1000000 in
theorem counters_parseSINFO (st : ParserState) (c : List Char) :
    (stateOf (parseSINFO st c)).message_error_count = st.message_error_count
    ∧ (stateOf (parseSINFO st c)).message_success_count = st.message_success_count := by
  simp only [parseSINFO]
  repeat' split
  all_goals exact ⟨rfl, rfl⟩

theorem counters_parseTCOUNT (st : ParserState) (c : List Char) :
    (stateOf (parseTCOUNT st c)).message_error_count = st.message_error_count
    ∧ (stateOf (parseTCOUNT st c)).message_success_count = st.message_success_count := by
  unfold parseTCOUNT
  repeat' split
  all_goals simp_all [stateOf]

theorem counters_decodeLine (st : ParserState) (raw : String) :
    (stateOf (decodeLine st raw)).message_error_count = st.message_error_count
    ∧ (stateOf (decodeLine st raw)).message_success_count = st.message_success_count := by
  simp only [decodeLine]
  repeat' split
  all_goals first
    | exact counters_parsePRGV _ _
    | exact counters_parseDRV _ _
    | exact counters_parseMSG _ _
    | exact counters_parsePRG _ _
    | exact counters_parseCINFO _ _
    | exact counters_parseTINFO _ _
    | exact counters_parseSINFO _ _
    | exact counters_parseTCOUNT _ _
    | exact ⟨rfl, rfl⟩

/-- C1 (code bug exhibit): the error/success counters never change, because
the membership tests at makemkv.py lines 382/385 compare the raw string
`code` against the integer-valued enumeration members, which is always
false in Python; in particular a fully decoded OPERATION_COMPLETE (5011)
message leaves the success counter at zero and a fully decoded
LIBMKV_TRACE (1002) message leaves the error counter at zero, contradicting
the documented increment/reset behaviour. -/
theorem makemkv_msg_counters_never_change :
    (∀ (st : ParserState) (line : String),
      (parse st line).message_error_count = st.message_error_count
      ∧ (parse st line).message_success_count = st.message_success_count)
    ∧ (parse initParserState "MSG:5011,0,0,ok,ok").message = "ok"
    ∧ (parse initParserState "MSG:5011,0,0,ok,ok").message_success_count = 0
    ∧ (parse initParserState "MSG:1002,0,0,x,x").message = "x"
    ∧ (parse initParserState "MSG:1002,0,0,x,x").message_error_count = 0 := by
  refine ⟨?_, by decide, by decide, by decide, by decide⟩
  intro st line
  simp only [parse]
  have h := counters_decodeLine
    { st with raw_message := (⟨pyStrip line.data⟩ : String) }
    (⟨pyStrip line.data⟩ : String)
  cases hdec : decodeLine { st with raw_message := (⟨pyStrip line.data⟩ : String) }
      (⟨pyStrip line.data⟩ : String) with
  | ok st1 =>
    rw [hdec] at h
    exact h
  | error p =>
    obtain ⟨st1, e⟩ := p
    rw [hdec] at h
    exact h

/-! ## Claim C2 — per-line exception handling in parse -/

theorem pySplit_all_ne (sep : Char) (k : Int) :
    ∀ (cs acc : List Char), cs.all (fun c => c ≠ sep) = true →
      pySplit sep k acc cs = [acc.reverse ++ cs] := by
  intro cs
  induction cs with
  | nil =>
    intro acc _
    simp [pySplit]
  | cons c cs ih =>
    intro acc hall
    rw [List.all_cons, Bool.and_eq_true] at hall
    have hc : ¬(c = sep) := by simpa using hall.1
    rw [pySplit, if_neg (fun hh => hc hh.1)]
    rw [ih (c :: acc) hall.2]
    simp

/-- C2 counterexample: a decode failure does not leave all previously
populated fields unchanged — an out-of-enumeration MSG flags value raises
only after `message_code` (among others) was already overwritten, so the
session keeps the new `message_code` alongside the diagnostic message. -/
theorem parse_failure_keeps_partial_fields_counterexample :
    (parse (parse initParserState "MSG:1005,0,0,v,v") "MSG:2003,999,0,x,y").message
      = "Parsing Exception: The MSG flags value 999 was not found!"
        ++ "\nRaw Message: " ++ "MSG:2003,999,0,x,y"
    ∧ (parse initParserState "MSG:1005,0,0,v,v").message_code = 1005
    ∧ (parse (parse initParserState "MSG:1005,0,0,v,v") "MSG:2003,999,0,x,y").message_code
      = 2003 := by
  refine ⟨by decide, by decide, by decide⟩

/-- C2 amended: `parse` never raises past the call; a decode failure sets
the session's message field to a diagnostic embedding the failure and the
original raw line, but `raw_message` is always updated and fields assigned
by the decode rule before its failure point keep their new values.  On a
line with no `:` delimiter the unpack failure happens before any rule
runs, so exactly the raw-line field and the diagnostic message field
change and every other field is left intact. -/
theorem parse_missing_delimiter_only_sets_message :
    ∀ (st : ParserState) (line : String),
      (pyStrip line.data).all (fun c => c ≠ ':') = true →
      parse st line =
        { st with
            raw_message := (⟨pyStrip line.data⟩ : String),
            message := "Parsing Exception: " ++ unpackErr 2 1 ++ "\nRaw Message: "
              ++ (⟨pyStrip line.data⟩ : String) } := by
  intro st line h
  have hsplit : pySplit ':' 1 [] (pyStrip line.data) = [pyStrip line.data] := by
    have hres := pySplit_all_ne ':' 1 (pyStrip line.data) [] h
    simpa using hres
  simp only [parse, decodeLine]
  rw [hsplit]

/-- C2 witness: feeding a delimiterless line to a fresh parser session. -/
theorem parse_missing_delimiter_only_sets_message_witness :
    (pyStrip ("no delimiter here".data)).all (fun c => c ≠ ':') = true
    ∧ parse initParserState "no delimiter here" =
        { initParserState with
            raw_message := (⟨pyStrip ("no delimiter here".data)⟩ : String),
            message := "Parsing Exception: " ++ unpackErr 2 1 ++ "\nRaw Message: "
              ++ (⟨pyStrip ("no delimiter here".data)⟩ : String) } :=
  ⟨by decide,
   parse_missing_delimiter_only_sets_message initParserState "no delimiter here" (by decide)⟩

/-! ## Claim C10 — shape invariant of the titles map -/

theorem dget_dset_self [DecidableEq κ] (d : List (κ × β)) (k : κ) (v : β) :
    dget (dset d k v) k = some v := by
  induction d with
  | nil => simp [dget, dset]
  | cons p rest ih =>
    obtain ⟨k0, v0⟩ := p
    rw [dset]
    by_cases h : k0 = k
    · rw [if_pos h, dget, if_pos h]
    · rw [if_neg h, dget, if_neg h]
      exact ih

theorem dget_dset_ne [DecidableEq κ] (d : List (κ × β)) {k k' : κ} (v : β) (h : k' ≠ k) :
    dget (dset d k v) k' = dget d k' := by
  induction d with
  | nil =>
    simp only [dset, dget]
    rw [if_neg (fun hh => h hh.symm)]
  | cons p rest ih =>
    obtain ⟨k0, v0⟩ := p
    rw [dset]
    by_cases h0 : k0 = k
    · rw [if_pos h0, dget, dget]
      have : ¬(k0 = k') := fun hh => h (hh ▸ h0.symm ▸ rfl)
      rw [if_neg this, if_neg this]
    · rw [if_neg h0, dget, dget]
      by_cases h1 : k0 = k'
      · rw [if_pos h1, if_pos h1]
      · rw [if_neg h1, if_neg h1]
        exact ih

theorem mem_dset [DecidableEq κ] (d : List (κ × β)) (k : κ) (v : β) :
    ∀ p ∈ dset d k v, p = (k, v) ∨ p ∈ d := by
  induction d with
  | nil =>
    intro p hp
    rw [dset] at hp
    exact Or.inl (List.mem_singleton.mp hp)
  | cons q rest ih =>
    obtain ⟨k0, v0⟩ := q
    intro p hp
    rw [dset] at hp
    by_cases h : k0 = k
    · rw [if_pos h] at hp
      rcases List.mem_cons.mp hp with rfl | hp
      · subst h
        exact Or.inl rfl
      · exact Or.inr (List.mem_cons_of_mem _ hp)
    · rw [if_neg h] at hp
      rcases List.mem_cons.mp hp with rfl | hp
      · exact Or.inr (List.mem_cons_self _ _)
      · rcases ih p hp with hh | hh
        · exact Or.inl hh
        · exact Or.inr (List.mem_cons_of_mem _ hh)

theorem dget_mem [DecidableEq κ] (d : List (κ × β)) (k : κ) (v : β)
    (h : dget d k = some v) : (k, v) ∈ d := by
  induction d with
  | nil => simp [dget] at h
  | cons p rest ih =>
    obtain ⟨k0, v0⟩ := p
    rw [dget] at h
    by_cases h0 : k0 = k
    · rw [if_pos h0] at h
      subst h0
      rcases Option.some.inj h with rfl
      exact List.mem_cons_self _ _
    · rw [if_neg h0] at h
      exact List.mem_cons_of_mem _ (ih h)

/-- Storing a well-shaped title dictionary preserves the shape invariant. -/
theorem titlesShapeOK_dset (titles : List (Int × TitleDict)) (t : Int) (td : TitleDict)
    (h : titlesShapeOK titles) (htd : ∃ m, dget td TKey.streamsKey = some (TVal.streams m)) :
    titlesShapeOK (dset titles t td) := by
  intro p hp
  rcases mem_dset titles t td p hp with rfl | hp
  · exact htd
  · exact h p hp

/-- Storing an attribute under an `ATTR_ID` key never disturbs the
`"streams"` binding of a title dictionary. -/
theorem dget_streams_dset_attr (td : TitleDict) (i : Int) (v : TVal) :
    dget (dset td (TKey.attr i) v) TKey.streamsKey = dget td TKey.streamsKey :=
  dget_dset_ne td v (by intro h; exact TKey.noConfusion h)

theorem isSome_dget_dset [DecidableEq κ] (d : List (κ × β)) (k k' : κ) (v : β)
    (h : (dget d k').isSome = true) : (dget (dset d k v) k').isSome = true := by
  by_cases hk : k' = k
  · subst hk
    rw [dget_dset_self]
    rfl
  · rw [dget_dset_ne _ _ hk]
    exact h

theorem isSome_dget_create [DecidableEq κ] (d : List (κ × β)) (k k' : κ) (v : β)
    (h : (dget d k').isSome = true) :
    (dget (if (dget d k).isNone = true then dset d k v else d) k').isSome = true := by
  split
  · exact isSome_dget_dset _ _ _ _ h
  · exact h

theorem titleHasStream_ne_of_isNone {titles : List (Int × TitleDict)} {t t0 : Int} {s0 : Int}
    (h : titleHasStream titles t0 s0) (hnone : (dget titles t).isNone = true) : t0 ≠ t := by
  rintro rfl
  obtain ⟨td0, m0, h1, -, -⟩ := h
  rw [h1] at hnone
  simp at hnone

theorem titleHasStream_dset_of_ne (titles : List (Int × TitleDict)) (t : Int)
    (td' : TitleDict) (t0 s0 : Int)
    (h : titleHasStream titles t0 s0) (hne : t0 ≠ t) :
    titleHasStream (dset titles t td') t0 s0 := by
  obtain ⟨td0, m0, h1, h2, h3⟩ := h
  exact ⟨td0, m0, by rw [dget_dset_ne _ _ hne]; exact h1, h2, h3⟩

theorem titleHasStream_dset_attr (titles : List (Int × TitleDict)) (t : Int)
    (td : TitleDict) (i : Int) (v : TVal) (t0 s0 : Int)
    (h : titleHasStream titles t0 s0) (htd : dget titles t = some td) :
    titleHasStream (dset titles t (dset td (TKey.attr i) v)) t0 s0 := by
  obtain ⟨td0, m0, h1, h2, h3⟩ := h
  by_cases ht : t0 = t
  · subst ht
    rw [h1] at htd
    rcases Option.some.inj htd with rfl
    exact ⟨_, m0, dget_dset_self _ _ _, by rw [dget_streams_dset_attr]; exact h2, h3⟩
  · exact ⟨td0, m0, by rw [dget_dset_ne _ _ ht]; exact h1, h2, h3⟩

theorem titleHasStream_dset_streams (titles : List (Int × TitleDict)) (t : Int)
    (td : TitleDict) (m m1 : List (Int × StreamDict)) (t0 s0 : Int)
    (h : titleHasStream titles t0 s0) (htd : dget titles t = some td)
    (hm : dget td TKey.streamsKey = some (TVal.streams m))
    (hsup : (dget m s0).isSome = true → (dget m1 s0).isSome = true) :
    titleHasStream (dset titles t (dset td TKey.streamsKey (TVal.streams m1))) t0 s0 := by
  obtain ⟨td0, m0, h1, h2, h3⟩ := h
  by_cases ht : t0 = t
  · subst ht
    rw [h1] at htd
    rcases Option.some.inj htd with rfl
    rw [h2] at hm
    rcases TVal.streams.inj (Option.some.inj hm) with rfl
    exact ⟨_, m1, dget_dset_self _ _ _, dget_dset_self _ _ _, hsup h3⟩
  · exact ⟨td0, m0, by rw [dget_dset_ne _ _ ht]; exact h1, h2, h3⟩

theorem titlesShapeOK_set_attr (titles : List (Int × TitleDict)) (t : Int)
    (td : TitleDict) (i : Int) (v : TVal)
    (h : titlesShapeOK titles) (htd : dget titles t = some td) :
    titlesShapeOK (dset titles t (dset td (TKey.attr i) v)) := by
  obtain ⟨m, hm⟩ := h (t, td) (dget_mem _ _ _ htd)
  exact titlesShapeOK_dset _ _ _ h ⟨m, by rw [dget_streams_dset_attr]; exact hm⟩

theorem shape_create_title (titles : List (Int × TitleDict)) (t : Int)
    (h : titlesShapeOK titles) : titlesShapeOK (create_title titles t) := by
  rw [create_title]
  split
  · exact titlesShapeOK_dset _ _ _ h ⟨[], rfl⟩
  · exact h

theorem isSome_dget_create_title (titles : List (Int × TitleDict)) (t t0 : Int)
    (h : (dget titles t0).isSome = true) :
    (dget (create_title titles t) t0).isSome = true := by
  rw [create_title]
  split
  · exact isSome_dget_dset _ _ _ _ h
  · exact h

theorem dget_create_title_self (titles : List (Int × TitleDict)) (t : Int) :
    (dget (create_title titles t) t).isSome = true := by
  rw [create_title]
  split
  · rw [dget_dset_self]
    rfl
  · rename_i hn
    cases hdg : dget titles t with
    | none => rw [hdg] at hn; simp at hn
    | some td => rfl

theorem titleHasStream_create_title (titles : List (Int × TitleDict)) (t t0 s0 : Int)
    (h : titleHasStream titles t0 s0) :
    titleHasStream (create_title titles t) t0 s0 := by
  rw [create_title]
  split
  · exact titleHasStream_dset_of_ne _ _ _ _ _ h
      (titleHasStream_ne_of_isNone h (by assumption))
  · exact h

theorem isSome_dget_create_stream (m : List (Int × StreamDict)) (s s0 : Int)
    (h : (dget m s0).isSome = true) :
    (dget (create_stream m s) s0).isSome = true := by
  rw [create_stream]
  split
  · exact isSome_dget_dset _ _ _ _ h
  · exact h

theorem isSome_dget_create_stream_self (m : List (Int × StreamDict)) (s : Int) :
    (dget (create_stream m s) s).isSome = true := by
  rw [create_stream]
  split
  · rw [dget_dset_self]
    rfl
  · rename_i hn
    cases hdg : dget m s with
    | none => rw [hdg] at hn; simp at hn
    | some sd => rfl

theorem shape_parseTINFO (st : ParserState) (c : List Char)
    (h : titlesShapeOK st.titles) :
    titlesShapeOK (stateOf (parseTINFO st c)).titles := by
  simp only [parseTINFO]
  repeat' split
  all_goals first
    | exact h
    | exact shape_create_title _ _ h
    | exact titlesShapeOK_set_attr _ _ _ _ _ (shape_create_title _ _ h) (by assumption)

theorem title_mono_parseTINFO (st : ParserState) (c : List Char) (t0 : Int)
    (h : (dget st.titles t0).isSome = true) :
    (dget (stateOf (parseTINFO st c)).titles t0).isSome = true := by
  simp only [parseTINFO]
  repeat' split
  all_goals first
    | exact h
    | exact isSome_dget_create_title _ _ _ h
    | exact isSome_dget_dset _ _ _ _ (isSome_dget_create_title _ _ _ h)

theorem stream_mono_parseTINFO (st : ParserState) (c : List Char) (t0 s0 : Int)
    (h : titleHasStream st.titles t0 s0) :
    titleHasStream (stateOf (parseTINFO st c)).titles t0 s0 := by
  simp only [parseTINFO]
  repeat' split
  all_goals first
    | exact h
    | exact titleHasStream_create_title _ _ _ _ h
    | exact titleHasStream_dset_attr _ _ _ _ _ _ _
        (titleHasStream_create_title _ _ _ _ h) (by assumption)

theorem shape_parseSINFO (st : ParserState) (c : List Char)
    (h : titlesShapeOK st.titles) :
    titlesShapeOK (stateOf (parseSINFO st c)).titles := by
  simp only [parseSINFO]
  repeat' split
  all_goals first
    | exact h
    | exact shape_create_title _ _ h
    | exact titlesShapeOK_dset _ _ _ (shape_create_title _ _ h) ⟨_, dget_dset_self _ _ _⟩
    | exact titlesShapeOK_dset _ _ _
        (titlesShapeOK_dset _ _ _ (shape_create_title _ _ h) ⟨_, dget_dset_self _ _ _⟩)
        ⟨_, dget_dset_self _ _ _⟩

theorem title_mono_parseSINFO (st : ParserState) (c : List Char) (t0 : Int)
    (h : (dget st.titles t0).isSome = true) :
    (dget (stateOf (parseSINFO st c)).titles t0).isSome = true := by
  simp only [parseSINFO]
  repeat' split
  all_goals first
    | exact h
    | exact isSome_dget_create_title _ _ _ h
    | exact isSome_dget_dset _ _ _ _ (isSome_dget_create_title _ _ _ h)
    | exact isSome_dget_dset _ _ _ _ (isSome_dget_dset _ _ _ _ (isSome_dget_create_title _ _ _ h))

theorem stream_mono_parseSINFO (st : ParserState) (c : List Char) (t0 s0 : Int)
    (h : titleHasStream st.titles t0 s0) :
    titleHasStream (stateOf (parseSINFO st c)).titles t0 s0 := by
  simp only [parseSINFO]
  repeat' split
  all_goals first
    | exact h
    | exact titleHasStream_create_title _ _ _ _ h
    | exact titleHasStream_dset_streams _ _ _ _ _ _ _
        (titleHasStream_create_title _ _ _ _ h) (by assumption) (by assumption)
        (fun hs => isSome_dget_create_stream _ _ _ hs)
    | exact titleHasStream_dset_streams _ _ _ _ _ _ _
        (titleHasStream_dset_streams _ _ _ _ _ _ _
          (titleHasStream_create_title _ _ _ _ h) (by assumption) (by assumption)
          (fun hs => isSome_dget_create_stream _ _ _ hs))
        (dget_dset_self _ _ _) (dget_dset_self _ _ _)
        (fun hs => isSome_dget_dset _ _ _ _ hs)

/-- A well-formed `TINFO` line creates (or keeps) the addressed title with
its `"streams"` map, whether or not the attribute id validates. -/
theorem parseTINFO_creates (st : ParserState) (c tn id code value : List Char)
    (t i cd : Int) (v : AttrVal)
    (hshape : titlesShapeOK st.titles)
    (hs : pySplit ',' 3 [] c = [tn, id, code, value])
    (h1 : pyInt? tn = some t) (h2 : pyInt? id = some i) (h3 : pyInt? code = some cd)
    (hv : process_id i value = Except.ok v) :
    ∃ td, dget (stateOf (parseTINFO st c)).titles t = some td
      ∧ ∃ m, dget td TKey.streamsKey = some (TVal.streams m) := by
  simp only [parseTINFO, hs, h1, h2, h3, hv]
  cases hdg : dget (create_title st.titles t) t with
  | none =>
    have hself := dget_create_title_self st.titles t
    rw [hdg] at hself
    simp at hself
  | some td =>
    obtain ⟨m, hm⟩ := (shape_create_title st.titles t hshape) (t, td) (dget_mem _ _ _ hdg)
    by_cases hvalid : attrIdValid i = true
    · simp only [hdg, hvalid, if_true]
      refine ⟨_, dget_dset_self _ _ _, m, ?_⟩
      rw [dget_streams_dset_attr]
      exact hm
    · rw [Bool.not_eq_true] at hvalid
      simp only [hdg, hvalid, Bool.false_eq_true, if_false]
      exact ⟨td, hdg, m, hm⟩

/-- A well-formed `SINFO` line creates (or keeps) the addressed title and
stream, whether or not the attribute id validates. -/
theorem parseSINFO_creates (st : ParserState) (c tn sn id code value : List Char)
    (t s i cd : Int) (v : AttrVal)
    (hshape : titlesShapeOK st.titles)
    (hs : pySplit ',' 4 [] c = [tn, sn, id, code, value])
    (h1 : pyInt? tn = some t) (h2 : pyInt? sn = some s) (h3 : pyInt? id = some i)
    (h4 : pyInt? code = some cd)
    (hv : process_id i value = Except.ok v) :
    titleHasStream (stateOf (parseSINFO st c)).titles t s := by
  simp only [parseSINFO, hs, h1, h2, h3, h4, hv]
  cases hdg : dget (create_title st.titles t) t with
  | none =>
    have hself := dget_create_title_self st.titles t
    rw [hdg] at hself
    simp at hself
  | some td =>
    obtain ⟨m, hm⟩ := (shape_create_title st.titles t hshape) (t, td) (dget_mem _ _ _ hdg)
    simp only [hdg, hm]
    cases hdm : dget (create_stream m s) s with
    | none =>
      have hself := isSome_dget_create_stream_self m s
      rw [hdm] at hself
      simp at hself
    | some sd =>
      simp only [hdm]
      by_cases hvalid : attrIdValid i = true
      · simp only [hvalid, if_true]
        refine ⟨_, _, dget_dset_self _ _ _, dget_dset_self _ _ _, ?_⟩
        rw [dget_dset_self]
        rfl
      · rw [Bool.not_eq_true] at hvalid
        simp only [hvalid, Bool.false_eq_true, if_false]
        refine ⟨_, _, dget_dset_self _ _ _, dget_dset_self _ _ _, ?_⟩
        rw [hdm]
        rfl

theorem titles_parsePRGV (st : ParserState) (c : List Char) :
    (stateOf (parsePRGV st c)).titles = st.titles := by
  simp only [parsePRGV]
  repeat' split
  all_goals rfl

theorem titles_parseDRV (st : ParserState) (c : List Char) :
    (stateOf (parseDRV st c)).titles = st.titles := by
  simp only [parseDRV]
  repeat' split
  all_goals rfl

set_option maxHeartbeats 2000000 in
theorem titles_parseMSG (st : ParserState) (c : List Char) :
    (stateOf (parseMSG st c)).titles = st.titles := by
  unfold parseMSG
  repeat' split
  all_goals rfl

theorem titles_parsePRG (st : ParserState) (c : List Char) :
    (stateOf (parsePRG st c)).titles = st.titles := by
  simp only [parsePRG]
  repeat' split
  all_goals rfl

theorem titles_parseCINFO (st : ParserState) (c : List Char) :
    (stateOf (parseCINFO st c)).titles = st.titles := by
  simp only [parseCINFO]
  repeat' split
  all_goals rfl

theorem titles_parseTCOUNT (st : ParserState) (c : List Char) :
    (stateOf (parseTCOUNT st c)).titles = st.titles := by
  simp only [parseTCOUNT]
  repeat' split
  all_goals rfl

theorem shape_decodeLine (st : ParserState) (raw : String)
    (h : titlesShapeOK st.titles) :
    titlesShapeOK (stateOf (decodeLine st raw)).titles := by
  simp only [decodeLine]
  repeat' split
  all_goals first
    | exact h
    | (rw [titles_parsePRGV]; exact h)
    | (rw [titles_parseDRV]; exact h)
    | (rw [titles_parseMSG]; exact h)
    | (rw [titles_parsePRG]; exact h)
    | (rw [titles_parseCINFO]; exact h)
    | (rw [titles_parseTCOUNT]; exact h)
    | exact shape_parseTINFO _ _ h
    | exact shape_parseSINFO _ _ h

theorem title_mono_decodeLine (st : ParserState) (raw : String) (t0 : Int)
    (h : (dget st.titles t0).isSome = true) :
    (dget (stateOf (decodeLine st raw)).titles t0).isSome = true := by
  simp only [decodeLine]
  repeat' split
  all_goals first
    | exact h
    | (rw [titles_parsePRGV]; exact h)
    | (rw [titles_parseDRV]; exact h)
    | (rw [titles_parseMSG]; exact h)
    | (rw [titles_parsePRG]; exact h)
    | (rw [titles_parseCINFO]; exact h)
    | (rw [titles_parseTCOUNT]; exact h)
    | exact title_mono_parseTINFO _ _ _ h
    | exact title_mono_parseSINFO _ _ _ h

theorem stream_mono_decodeLine (st : ParserState) (raw : String) (t0 s0 : Int)
    (h : titleHasStream st.titles t0 s0) :
    titleHasStream (stateOf (decodeLine st raw)).titles t0 s0 := by
  simp only [decodeLine]
  repeat' split
  all_goals first
    | exact h
    | (rw [titles_parsePRGV]; exact h)
    | (rw [titles_parseDRV]; exact h)
    | (rw [titles_parseMSG]; exact h)
    | (rw [titles_parsePRG]; exact h)
    | (rw [titles_parseCINFO]; exact h)
    | (rw [titles_parseTCOUNT]; exact h)
    | exact stream_mono_parseTINFO _ _ _ _ h
    | exact stream_mono_parseSINFO _ _ _ _ h

theorem shape_parse (st : ParserState) (line : String)
    (h : titlesShapeOK st.titles) : titlesShapeOK (parse st line).titles := by
  simp only [parse]
  have hd := shape_decodeLine { st with raw_message := (⟨pyStrip line.data⟩ : String) }
    (⟨pyStrip line.data⟩ : String) h
  cases hdec : decodeLine { st with raw_message := (⟨pyStrip line.data⟩ : String) }
      (⟨pyStrip line.data⟩ : String) with
  | ok st1 =>
    rw [hdec] at hd
    exact hd
  | error p =>
    obtain ⟨st1, e⟩ := p
    rw [hdec] at hd
    exact hd

theorem title_mono_parse (st : ParserState) (line : String) (t0 : Int)
    (h : (dget st.titles t0).isSome = true) :
    (dget (parse st line).titles t0).isSome = true := by
  simp only [parse]
  have hd := title_mono_decodeLine { st with raw_message := (⟨pyStrip line.data⟩ : String) }
    (⟨pyStrip line.data⟩ : String) t0 h
  cases hdec : decodeLine { st with raw_message := (⟨pyStrip line.data⟩ : String) }
      (⟨pyStrip line.data⟩ : String) with
  | ok st1 =>
    rw [hdec] at hd
    exact hd
  | error p =>
    obtain ⟨st1, e⟩ := p
    rw [hdec] at hd
    exact hd

theorem stream_mono_parse (st : ParserState) (line : String) (t0 s0 : Int)
    (h : titleHasStream st.titles t0 s0) :
    titleHasStream (parse st line).titles t0 s0 := by
  simp only [parse]
  have hd := stream_mono_decodeLine { st with raw_message := (⟨pyStrip line.data⟩ : String) }
    (⟨pyStrip line.data⟩ : String) t0 s0 h
  cases hdec : decodeLine { st with raw_message := (⟨pyStrip line.data⟩ : String) }
      (⟨pyStrip line.data⟩ : String) with
  | ok st1 =>
    rw [hdec] at hd
    exact hd
  | error p =>
    obtain ⟨st1, e⟩ := p
    rw [hdec] at hd
    exact hd

theorem shape_parse_foldl (lines : List String) :
    ∀ st : ParserState, titlesShapeOK st.titles →
      titlesShapeOK ((lines.foldl parse st).titles) := by
  induction lines with
  | nil => intro st h; exact h
  | cons l rest ih =>
    intro st h
    exact ih (parse st l) (shape_parse st l h)

/-- C10: after every sequence of parse calls, every entry of the titles map
binds the `"streams"` key to a stream map; parse never removes a title or
stream entry; and well-formed `TINFO`/`SINFO` lines create the addressed
title (and, for `SINFO`, the addressed stream) with this shape when
absent, whether or not the attribute id validates. -/
theorem parser_titles_shape_invariant :
    (∀ lines : List String, titlesShapeOK ((lines.foldl parse initParserState).titles))
    ∧ (∀ (st : ParserState) (line : String) (t0 : Int),
        (dget st.titles t0).isSome = true → (dget (parse st line).titles t0).isSome = true)
    ∧ (∀ (st : ParserState) (line : String) (t0 s0 : Int),
        titleHasStream st.titles t0 s0 → titleHasStream (parse st line).titles t0 s0)
    ∧ (∀ (st : ParserState) (c tn id code value : List Char) (t i cd : Int) (v : AttrVal),
        titlesShapeOK st.titles →
        pySplit ',' 3 [] c = [tn, id, code, value] →
        pyInt? tn = some t → pyInt? id = some i → pyInt? code = some cd →
        process_id i value = Except.ok v →
        ∃ td, dget (stateOf (parseTINFO st c)).titles t = some td
          ∧ ∃ m, dget td TKey.streamsKey = some (TVal.streams m))
    ∧ (∀ (st : ParserState) (c tn sn id code value : List Char) (t s i cd : Int) (v : AttrVal),
        titlesShapeOK st.titles →
        pySplit ',' 4 [] c = [tn, sn, id, code, value] →
        pyInt? tn = some t → pyInt? sn = some s → pyInt? id = some i → pyInt? code = some cd →
        process_id i value = Except.ok v →
        titleHasStream (stateOf (parseSINFO st c)).titles t s) := by
  refine ⟨?_, title_mono_parse, stream_mono_parse, parseTINFO_creates, parseSINFO_creates⟩
  intro lines
  exact shape_parse_foldl lines initParserState (fun p hp => absurd hp (List.not_mem_nil p))

/-- C10 witness: the monotonicity parts applied to a session holding title
0 with stream 1, and the creation parts applied to fresh `TINFO`/`SINFO`
payloads addressing title 0 (and stream 1). -/
theorem parser_titles_shape_invariant_witness :
    titlesShapeOK (initParserState).titles
    ∧ pyInt? ("0".data) = some 0
    ∧ process_id 2 ("N".data) = Except.ok (AttrVal.s "N")
    ∧ (dget ({ initParserState with
          titles := [(0, [(TKey.streamsKey, TVal.streams [(1, [])])])] } : ParserState).titles
        0).isSome = true
    ∧ (dget (parse { initParserState with
          titles := [(0, [(TKey.streamsKey, TVal.streams [(1, [])])])] } "TCOUNT:5").titles
        0).isSome = true
    ∧ titleHasStream (parse { initParserState with
          titles := [(0, [(TKey.streamsKey, TVal.streams [(1, [])])])] } "TCOUNT:5").titles 0 1
    ∧ (∃ td, dget (stateOf (parseTINFO initParserState ("0,2,0,N".data))).titles 0 = some td
        ∧ ∃ m, dget td TKey.streamsKey = some (TVal.streams m))
    ∧ titleHasStream (stateOf (parseSINFO initParserState ("0,1,2,0,N".data))).titles 0 1 := by
  refine ⟨fun p hp => absurd hp (List.not_mem_nil p), by decide, rfl, by decide, ?_, ?_, ?_, ?_⟩
  · exact parser_titles_shape_invariant.2.1 _ "TCOUNT:5" 0 (by decide)
  · exact parser_titles_shape_invariant.2.2.1 _ "TCOUNT:5" 0 1
      ⟨[(TKey.streamsKey, TVal.streams [(1, [])])], [(1, [])], by decide, by decide, by decide⟩
  · exact parser_titles_shape_invariant.2.2.2.1 initParserState ("0,2,0,N".data)
      ("0".data) ("2".data) ("0".data) ("N".data) 0 2 0 (AttrVal.s "N")
      (fun p hp => absurd hp (List.not_mem_nil p)) (by decide) (by decide) (by decide)
      (by decide) rfl
  · exact parser_titles_shape_invariant.2.2.2.2 initParserState ("0,1,2,0,N".data)
      ("0".data) ("1".data) ("2".data) ("0".data) ("N".data) 0 1 2 0 (AttrVal.s "N")
      (fun p hp => absurd hp (List.not_mem_nil p)) (by decide) (by decide) (by decide)
      (by decide) (by decide) rfl
